import Mathlib

/-!
Verification development for the SoilPy geotechnical library core.

Shallow embedding of the Python sources in `src/soilpy`:
  * `models/spt.py` (NValue, SPTBlow, SPTExp, SPT)
  * `models/cpt.py` (CPTLayer, CPTExp, CPT)
  * `models/masw.py` (MaswLayer, MaswExp, Masw)
  * `models/point_load_test.py` (depth-map grouping; structure mirrored by SPT)
  * `models/soil_profile.py` (SoilLayer, SoilProfile)
  * `validation.py` (ValidationError, validate_field)

Python floats are modelled as exact rationals (ℚ), Python ints as ℤ.
Fallible Python code (raising ValueError / ValidationError / IndexError)
is modelled with `Except`.
-/

namespace SoilPy

/-- Truncation toward zero, the behaviour of Python `int(...)` on a float. -/
def pyInt (q : ℚ) : ℤ := if 0 ≤ q then ⌊q⌋ else ⌈q⌉

/-- Python list indexing `l[i]` with negative-index semantics: a negative
index counts from the end, and an out-of-range index raises IndexError. -/
def pyGet {α : Type} (l : List α) (i : ℤ) : Except String α :=
  let j : ℤ := if i < 0 then (l.length : ℤ) + i else i
  if h : 0 ≤ j ∧ j < (l.length : ℤ) then
    .ok (l.get ⟨j.toNat, by omega⟩)
  else
    .error "IndexError: list index out of range"

/-- The guard `x.depth is not None and x.depth >= depth` shared by every
depth-lookup loop in the source. -/
def pyGeOpt (o : Option ℚ) (d : ℚ) : Bool :=
  match o with
  | some x => if d ≤ x then true else false
  | none => false

/-- Python `sorted(set(xs))`: the distinct elements of `xs` in ascending order. -/
def sortedUnion (xs : List ℚ) : List ℚ :=
  List.insertionSort (· ≤ ·) xs.dedup

/-- Selection method enum from `enums.py`. -/
inductive SelectionMethod : Type
  | MIN
  | AVG
  | MAX
deriving DecidableEq, Repr

/-- Python `min(values)` / `max(values)` / `sum(values)/len(values)` dispatch
used verbatim (as the local closure `get_mode_value`) by the CPT and MASW
idealization loops: an empty list reduces to `0.0`. -/
def get_mode_value (mode : SelectionMethod) (values : List ℚ) : ℚ :=
  match values with
  | [] => 0
  | v :: vs =>
    match mode with
    | .MIN => vs.foldl min v
    | .AVG => (v :: vs).sum / ((v :: vs).length : ℚ)
    | .MAX => vs.foldl max v

/-! ## NValue (`models/spt.py`) -/

/-- An SPT blow count: a (Python-int) value or the Refusal sentinel. -/
inductive NValue : Type
  | finite (n : ℤ)
  | refusal
deriving DecidableEq, Repr

/-- Converts to int (50 for refusals). -/
def NValue.to_i32 : NValue → ℤ
  | .refusal => 50
  | .finite n => n

/-- Converts to Optional int, treating Refusal as 50 (never actually `none`). -/
def NValue.to_option : NValue → Option ℤ
  | .refusal => some 50
  | .finite n => some n

/-- Python `x or 0` applied to the result of `to_option`: `None` and the
falsy int `0` both give `0`; any other int is returned unchanged. -/
def pyOrZero (o : Option ℤ) : ℤ :=
  match o with
  | none => 0
  | some v => if v = 0 then 0 else v

/-- Multiply by a factor: `int(math.ceil(self._value * factor))`. -/
def NValue.mul_by_f64 : NValue → ℚ → NValue
  | .refusal, _ => .refusal
  | .finite n, factor => .finite ⌈(n : ℚ) * factor⌉

/-- Sum up with another NValue. -/
def NValue.sum_with : NValue → NValue → NValue
  | .refusal, _ => .refusal
  | _, .refusal => .refusal
  | .finite a, .finite b => .finite (a + b)

/-- Sum up with a float: `int(math.ceil(self._value + other))`. -/
def NValue.add_f64 : NValue → ℚ → NValue
  | .refusal, _ => .refusal
  | .finite n, other => .finite ⌈(n : ℚ) + other⌉

/-- Constructor `NValue.from_i32`, which raises for a non-positive argument. -/
def NValue.from_i32 (n : ℤ) : Except String NValue :=
  if n ≤ 0 then .error "n value must be greater than 0" else .ok (.finite n)

/-- Python `__lt__` on NValue: Refusal is below nothing, above every finite value. -/
def nvalLt (a b : NValue) : Bool :=
  match a, b with
  | .refusal, _ => false
  | .finite _, .refusal => true
  | .finite x, .finite y => decide (x < y)

/-- Python `min(seq)` over NValues: raises on an empty sequence, otherwise
keeps the current element unless a strictly smaller one appears. -/
def pyMinNV : List NValue → Except String NValue
  | [] => .error "min() arg is an empty sequence"
  | x :: xs => .ok (xs.foldl (fun c y => if nvalLt y c then y else c) x)

/-- Python `max(seq)` over NValues: `y > c` is `not (y < c or y == c)`. -/
def pyMaxNV : List NValue → Except String NValue
  | [] => .error "max() arg is an empty sequence"
  | x :: xs => .ok (xs.foldl (fun c y => if !(nvalLt y c || y = c) then y else c) x)

/-! ## SPT (`models/spt.py`) -/

/-- A single SPT blow.  Fields exactly as in the pydantic model. -/
structure SPTBlow : Type where
  thickness : Option ℚ := none
  depth : Option ℚ := none
  n : Option NValue := none
  n60 : Option NValue := none
  n90 : Option NValue := none
  n1_60 : Option NValue := none
  n1_60f : Option NValue := none
  cn : Option ℚ := none
  cr : Option ℚ := none
  alpha : Option ℚ := none
  beta : Option ℚ := none
deriving DecidableEq, Repr

/-- SPTBlow.new(depth, n). -/
def SPTBlow.new (depth : ℚ) (n : NValue) : SPTBlow :=
  { depth := some depth, n := some n }

/-- A single SPT experiment. -/
structure SPTExp : Type where
  blows : List SPTBlow := []
  name : String := ""
deriving DecidableEq, Repr

/-- SPTExp.new(blows, name). -/
def SPTExp.new (blows : List SPTBlow) (name : String) : SPTExp :=
  { blows := blows, name := name }

/-- A collection of SPT tests. -/
structure SPT : Type where
  exps : List SPTExp := []
  energy_correction_factor : Option ℚ := none
  diameter_correction_factor : Option ℚ := none
  sampler_correction_factor : Option ℚ := none
  idealization_method : SelectionMethod := .AVG
deriving DecidableEq, Repr

/-- Appending a value to a Python dict-of-lists: an existing key keeps its
position and grows its list, a new key is appended at the end. -/
def addToDepthMap {α : Type} (m : List (ℚ × List α)) (k : ℚ) (v : α) :
    List (ℚ × List α) :=
  match m with
  | [] => [(k, [v])]
  | (k₀, vs) :: rest =>
    if k₀ = k then (k₀, vs ++ [v]) :: rest else (k₀, vs) :: addToDepthMap rest k v

/-- The depth_map built by `SPT.get_idealized_exp`: blows with a depth and an
n value, grouped by exact depth, keys in first-encounter order. -/
def SPT.buildDepthMap (exps : List SPTExp) : List (ℚ × List NValue) :=
  exps.foldl
    (fun m e =>
      e.blows.foldl
        (fun m b =>
          match b.depth, b.n with
          | some d, some n => addToDepthMap m d n
          | _, _ => m)
        m)
    []

/-- The per-depth selection performed by `SPT.get_idealized_exp`: MIN/MAX use
Python min/max over NValues; AVG sums `n.to_option() or 0`, divides by the
count and rounds half-up via `int()` truncation, then calls `from_i32`. -/
def sptSelect (mode : SelectionMethod) (n_values : List NValue) :
    Except String NValue :=
  match mode with
  | .MIN => pyMinNV n_values
  | .MAX => pyMaxNV n_values
  | .AVG =>
    let sum_val : ℤ := (n_values.map (fun n => pyOrZero n.to_option)).sum
    let count : ℕ := n_values.length
    if 0 < count then
      let avg_float : ℚ := (sum_val : ℚ) / (count : ℚ)
      let avg_val : ℤ :=
        if avg_float - ((pyInt avg_float : ℤ) : ℚ) ≥ 1/2 then pyInt avg_float + 1
        else pyInt avg_float
      NValue.from_i32 avg_val
    else
      NValue.from_i32 0

/-- The emission loop of SPT.get_idealized_exp: one blow per depth_map entry
(dict insertion order, no sorting, no depth lookup), failing if a reduction
fails. -/
def sptMapBlows (mode : SelectionMethod) :
    List (ℚ × List NValue) → Except String (List SPTBlow)
  | [] => .ok []
  | p :: rest =>
    match sptSelect mode p.2 with
    | .error err => .error err
    | .ok n =>
      (sptMapBlows mode rest).map
        (fun bs => ({ depth := some p.1, n := some n } : SPTBlow) :: bs)

/-- SPT.get_idealized_exp: reduces every depth_map entry in key order. -/
def SPT.get_idealized_exp (spt : SPT) (name : String) : Except String SPTExp :=
  match sptMapBlows spt.idealization_method (SPT.buildDepthMap spt.exps) with
  | .error err => .error err
  | .ok idealized_blows => .ok (SPTExp.new idealized_blows name)

/-! ## CPT (`models/cpt.py`) -/

/-- A single CPT data point. -/
structure CPTLayer : Type where
  depth : Option ℚ := none
  cone_resistance : Option ℚ := none
  sleeve_friction : Option ℚ := none
  pore_pressure : Option ℚ := none
  friction_ratio : Option ℚ := none
deriving DecidableEq, Repr

/-- CPTLayer.new(depth, qc, fs, u2=None). -/
def CPTLayer.new (depth qc fs : ℚ) (u2 : Option ℚ := none) : CPTLayer :=
  { depth := some depth
    cone_resistance := some qc
    sleeve_friction := some fs
    pore_pressure := u2
    friction_ratio := none }

/-- A CPT profile: a named list of CPT data points. -/
structure CPTExp : Type where
  layers : List CPTLayer := []
  name : String := ""
deriving DecidableEq, Repr

/-- CPTExp.new(layers, name). -/
def CPTExp.new (layers : List CPTLayer) (name : String) : CPTExp :=
  { layers := layers, name := name }

/-- First layer whose depth is set and ≥ the query depth, else the last
layer, else a default (all-None) layer. -/
def CPTExp.get_layer_at_depth (e : CPTExp) (depth : ℚ) : CPTLayer :=
  match e.layers.find? (fun l => pyGeOpt l.depth depth) with
  | some l => l
  | none => (e.layers.getLast?).getD {}

/-- A collection of CPT tests. -/
structure CPT : Type where
  exps : List CPTExp := []
  idealization_method : SelectionMethod := .AVG
deriving DecidableEq, Repr

/-- Every depth recorded in any experiment of the collection, in traversal
order (the iteration that fills `unique_depths`). -/
def CPT.allDepths (c : CPT) : List ℚ :=
  c.exps.flatMap (fun e => e.layers.filterMap (fun l => l.depth))

/-- The sorted deduplicated depth union over which the idealized CPT
experiment is built. -/
def CPT.depthUnion (c : CPT) : List ℚ :=
  sortedUnion c.allDepths

/-- The gather step at one depth: look one layer up in every experiment and
keep the chosen channel where it is present. -/
def CPT.gather (c : CPT) (channel : CPTLayer → Option ℚ) (depth : ℚ) : List ℚ :=
  (c.exps.map (fun e => e.get_layer_at_depth depth)).filterMap channel

/-- CPT.get_idealized_exp: one record per unioned depth, each channel reduced
over the per-experiment lookups with the selection rule. -/
def CPT.get_idealized_exp (c : CPT) (name : String) : CPTExp :=
  if c.exps = [] then CPTExp.new [] name
  else
    CPTExp.new
      (c.depthUnion.map (fun depth =>
        CPTLayer.new depth
          (get_mode_value c.idealization_method
            (c.gather (fun l => l.cone_resistance) depth))
          (get_mode_value c.idealization_method
            (c.gather (fun l => l.sleeve_friction) depth))
          (some (get_mode_value c.idealization_method
            (c.gather (fun l => l.pore_pressure) depth)))))
      name

/-! ## MASW (`models/masw.py`) -/

/-- A single MASW layer. -/
structure MaswLayer : Type where
  thickness : Option ℚ := none
  vs : Option ℚ := none
  vp : Option ℚ := none
  depth : Option ℚ := none
deriving DecidableEq, Repr

/-- MaswLayer.new(thickness, vs, vp). -/
def MaswLayer.new (thickness vs vp : ℚ) : MaswLayer :=
  { thickness := some thickness, vs := some vs, vp := some vp, depth := none }

/-- A MASW experiment: a named list of layers. -/
structure MaswExp : Type where
  layers : List MaswLayer := []
  name : String := ""
deriving DecidableEq, Repr

/-- The mutation loop of `MaswExp.calc_depths`: cumulative bottom depths,
raising when a thickness is missing or non-positive. -/
def maswDepthsGo (bottom : ℚ) : List MaswLayer → Except String (List MaswLayer)
  | [] => .ok []
  | layer :: rest =>
    match layer.thickness with
    | none => .error "Layer thickness must be set"
    | some t =>
      if t ≤ 0 then
        .error "Thickness of MASW experiment must be greater than zero."
      else
        (maswDepthsGo (bottom + t) rest).map
          (fun rs => { layer with depth := some (bottom + t) } :: rs)

/-- MaswExp.calc_depths: no-op on an empty layer list. -/
def MaswExp.calc_depths (e : MaswExp) : Except String MaswExp :=
  if e.layers = [] then .ok e
  else (maswDepthsGo 0 e.layers).map (fun ls => { e with layers := ls })

/-- MaswExp.new(layers, name) runs calc_depths on the fresh experiment. -/
def MaswExp.new (layers : List MaswLayer) (name : String) : Except String MaswExp :=
  MaswExp.calc_depths { layers := layers, name := name }

/-- First layer whose depth is set and ≥ the query depth, else the last
layer, else a default (all-None) layer. -/
def MaswExp.get_layer_at_depth (e : MaswExp) (depth : ℚ) : MaswLayer :=
  match e.layers.find? (fun l => pyGeOpt l.depth depth) with
  | some l => l
  | none => (e.layers.getLast?).getD {}

/-- A MASW model: a list of experiments plus the selection rule. -/
structure Masw : Type where
  exps : List MaswExp := []
  idealization_method : SelectionMethod := .AVG
deriving DecidableEq, Repr

/-- Depth recomputation over a list of experiments, first failure wins. -/
def maswMapCalc : List MaswExp → Except String (List MaswExp)
  | [] => .ok []
  | e :: rest =>
    match e.calc_depths with
    | .error err => .error err
    | .ok e' => (maswMapCalc rest).map (fun rs => e' :: rs)

/-- Masw.calc_depths updates every experiment in the model. -/
def Masw.calc_depths (m : Masw) : Except String Masw :=
  (maswMapCalc m.exps).map (fun es => { m with exps := es })

/-- The depth union for MASW idealization: the surface depth 0.0 together
with every layer depth of every experiment, deduplicated and sorted. -/
def maswDepthUnion (exps : List MaswExp) : List ℚ :=
  sortedUnion (0 :: exps.flatMap (fun e => e.layers.filterMap (fun l => l.depth)))

/-- The gather step at one query depth (an interval midpoint): look one layer
up in every experiment and keep the chosen channel where present. -/
def maswGather (exps : List MaswExp) (channel : MaswLayer → Option ℚ) (depth : ℚ) :
    List ℚ :=
  (exps.map (fun e => e.get_layer_at_depth depth)).filterMap channel

/-- The per-interval layer construction of Masw.get_idealized_exp: one layer
per interval between consecutive unioned depths, with thickness equal to the
interval length and vs/vp sampled at the interval midpoint and reduced. -/
def maswIdealLayers (mode : SelectionMethod) (exps : List MaswExp) : List MaswLayer :=
  let sorted_depths := maswDepthUnion exps
  (sorted_depths.zip sorted_depths.tail).map (fun p =>
    let top := p.1
    let bottom := p.2
    let mid := (top + bottom) / 2
    let vs := get_mode_value mode (maswGather exps (fun l => l.vs) mid)
    let vp := get_mode_value mode (maswGather exps (fun l => l.vp) mid)
    MaswLayer.new (bottom - top) vs vp)

/-- Masw.get_idealized_exp: recomputes depths, then emits one layer per
interval between consecutive unioned depths via `maswIdealLayers`. -/
def Masw.get_idealized_exp (m : Masw) (name : String) : Except String MaswExp :=
  if m.exps = [] then MaswExp.new [] name
  else
    match m.calc_depths with
    | .error err => .error err
    | .ok m' => MaswExp.new (maswIdealLayers m.idealization_method m'.exps) name

/-! ## Validation (`validation.py`) -/

/-- Structured validation error (code and human-readable message). -/
structure ValidationError : Type where
  code : String
  message : String
deriving DecidableEq, Repr

/-- validate_field: a missing value, or one outside the optional inclusive
bounds, raises a ValidationError.  (Numeric formatting inside generated
error codes uses the rational printer rather than Python float formatting.) -/
def validate_field (field_name : String) (value : Option ℚ)
    (min_val : Option ℚ := none) (max_val : Option ℚ := none)
    ( error_code_prefix : String := "validation") : Except ValidationError Unit :=
  match value with
  | none =>
    .error ⟨ error_code_prefix ++ "." ++ field_name ++ ".missing",
             field_name ++ " must be provided."⟩
  | some v =>
    match min_val with
    | some lo =>
      if v < lo then
        .error ⟨ error_code_prefix ++ "." ++ field_name ++ ".too_small." ++ toString lo,
                 field_name ++ " must be greater than or equal to " ++ toString lo ++ "."⟩
      else
        match max_val with
        | some hi =>
          if v > hi then
            .error ⟨ error_code_prefix ++ "." ++ field_name ++ ".too_large." ++ toString hi,
                     field_name ++ " must be less than or equal to " ++ toString hi ++ "."⟩
          else .ok ()
        | none => .ok ()
    | none =>
      match max_val with
      | some hi =>
        if v > hi then
          .error ⟨ error_code_prefix ++ "." ++ field_name ++ ".too_large." ++ toString hi,
                   field_name ++ " must be less than or equal to " ++ toString hi ++ "."⟩
        else .ok ()
      | none => .ok ()

/-! ## Soil profile (`models/soil_profile.py`) -/

/-- A single soil layer, fields exactly as in the pydantic model. -/
structure SoilLayer : Type where
  soil_classification : Option String := none
  thickness : Option ℚ := none
  natural_unit_weight : Option ℚ := none
  dry_unit_weight : Option ℚ := none
  saturated_unit_weight : Option ℚ := none
  depth : Option ℚ := none
  center : Option ℚ := none
  damping_ratio : Option ℚ := none
  fine_content : Option ℚ := none
  liquid_limit : Option ℚ := none
  plastic_limit : Option ℚ := none
  plasticity_index : Option ℚ := none
  cu : Option ℚ := none
  c_prime : Option ℚ := none
  phi_u : Option ℚ := none
  phi_prime : Option ℚ := none
  water_content : Option ℚ := none
  poissons_ratio : Option ℚ := none
  elastic_modulus : Option ℚ := none
  void_ratio : Option ℚ := none
  recompression_index : Option ℚ := none
  compression_index : Option ℚ := none
  preconsolidation_pressure : Option ℚ := none
  mv : Option ℚ := none
  shear_wave_velocity : Option ℚ := none
deriving DecidableEq, Repr

/-- SoilLayer.new(thickness). -/
def SoilLayer.new (thickness : ℚ) : SoilLayer :=
  { thickness := some thickness }

/-- Dispatch of `SoilLayer.validate_fields` for a single requested field name. -/
def SoilLayer.validate_one (l : SoilLayer) (field : String) :
    Except ValidationError Unit :=
  if field = "thickness" then
    validate_field "thickness" l.thickness (some (1/10000)) none "soil_profile"
  else if field = "natural_unit_weight" then
    validate_field "natural_unit_weight" l.natural_unit_weight (some (1/10)) (some 10) "soil_profile"
  else if field = "dry_unit_weight" then
    validate_field "dry_unit_weight" l.dry_unit_weight (some (1/10)) (some 10) "soil_profile"
  else if field = "saturated_unit_weight" then
    validate_field "saturated_unit_weight" l.saturated_unit_weight (some (1/10)) (some 10) "soil_profile"
  else if field = "damping_ratio" then
    validate_field "damping_ratio" l.damping_ratio (some (1/10)) (some 100) "soil_profile"
  else if field = "fine_content" then
    validate_field "fine_content" l.fine_content (some 0) (some 100) "soil_profile"
  else if field = "liquid_limit" then
    validate_field "liquid_limit" l.liquid_limit (some 0) (some 100) "soil_profile"
  else if field = "plastic_limit" then
    validate_field "plastic_limit" l.plastic_limit (some 0) (some 100) "soil_profile"
  else if field = "plasticity_index" then
    validate_field "plasticity_index" l.plasticity_index (some 0) (some 100) "soil_profile"
  else if field = "cu" then
    validate_field "cu" l.cu (some 0) none "soil_profile"
  else if field = "c_prime" then
    validate_field "c_prime" l.c_prime (some 0) none "soil_profile"
  else if field = "phi_u" then
    validate_field "phi_u" l.phi_u (some 0) (some 90) "soil_profile"
  else if field = "phi_prime" then
    validate_field "phi_prime" l.phi_prime (some 0) (some 90) "soil_profile"
  else if field = "water_content" then
    validate_field "water_content" l.water_content (some 0) (some 100) "soil_profile"
  else if field = "poissons_ratio" then
    validate_field "poissons_ratio" l.poissons_ratio (some (1/10000)) (some (1/2)) "soil_profile"
  else if field = "elastic_modulus" then
    validate_field "elastic_modulus" l.elastic_modulus (some (1/10000)) none "soil_profile"
  else if field = "void_ratio" then
    validate_field "void_ratio" l.void_ratio (some 0) none "soil_profile"
  else if field = "compression_index" then
    validate_field "compression_index" l.compression_index (some 0) none "soil_profile"
  else if field = "recompression_index" then
    validate_field "recompression_index" l.recompression_index (some 0) none "soil_profile"
  else if field = "preconsolidation_pressure" then
    validate_field "preconsolidation_pressure" l.preconsolidation_pressure (some 0) none "soil_profile"
  else if field = "mv" then
    validate_field "mv" l.mv (some 0) none "soil_profile"
  else if field = "shear_wave_velocity" then
    validate_field "shear_wave_velocity" l.shear_wave_velocity (some 0) none "soil_profile"
  else
    .error ⟨"soil_profile.invalid_field",
            "Field is not valid for SoilLayer: " ++ field⟩

/-- SoilLayer.validate_fields(fields): validates each requested field in order. -/
def SoilLayer.validate_fields (l : SoilLayer) (fields : List String) :
    Except ValidationError Unit :=
  fields.forM (fun field => l.validate_one field)

/-- A soil profile: ordered layers plus a single ground water level. -/
structure SoilProfile : Type where
  layers : List SoilLayer := []
  ground_water_level : Option ℚ := none
deriving DecidableEq, Repr

/-- The mutation loop of `SoilProfile.calc_layer_depths`: for each layer,
center = bottom + thickness/2, bottom += thickness, depth = bottom. -/
def calcDepthsGo (bottom : ℚ) : List SoilLayer → Except String (List SoilLayer)
  | [] => .ok []
  | layer :: rest =>
    match layer.thickness with
    | none => .error "Layer thickness must be set"
    | some t =>
      (calcDepthsGo (bottom + t) rest).map
        (fun rs =>
          { layer with center := some (bottom + t / 2), depth := some (bottom + t) } :: rs)

/-- SoilProfile.calc_layer_depths: no-op on an empty layer list. -/
def SoilProfile.calc_layer_depths (p : SoilProfile) : Except String SoilProfile :=
  if p.layers = [] then .ok p
  else (calcDepthsGo 0 p.layers).map (fun ls => { p with layers := ls })

/-- Index of the first layer whose stored depth is set and ≥ the query
depth; if none matches, the last index (which is -1 for an empty profile). -/
def SoilProfile.get_layer_index (p : SoilProfile) (depth : ℚ) : ℤ :=
  match p.layers.findIdx? (fun l => pyGeOpt l.depth depth) with
  | some i => (i : ℤ)
  | none => (p.layers.length : ℤ) - 1

/-- SoilProfile.get_layer_at_depth: Python list indexing at the layer index. -/
def SoilProfile.get_layer_at_depth (p : SoilProfile) (depth : ℚ) :
    Except String SoilLayer :=
  pyGet p.layers (p.get_layer_index depth)

/-- The stress integration loop of `calc_normal_stress` over the slice
`layers[: layer_index + 1]`: the final element of the slice is the partial
layer, which contributes only down to the query depth. -/
def normalLoop (gwt depth : ℚ) (previous_depth : ℚ) :
    List SoilLayer → Except String ℚ
  | [] => .ok 0
  | layer :: rest =>
    match layer.thickness with
    | none => .error "Layer thickness must be set"
    | some t =>
      let layer_thickness := if rest = [] then depth - previous_depth else t
      let dry_unit_weight := layer.dry_unit_weight.getD 0
      let saturated_unit_weight := layer.saturated_unit_weight.getD 0
      if dry_unit_weight ≤ 1 ∧ saturated_unit_weight ≤ 1 then
        .error "Dry or saturated unit weight must be greater than 1 for each layer."
      else
        let contribution :=
          if gwt ≥ previous_depth + layer_thickness then
            dry_unit_weight * layer_thickness
          else if gwt ≤ previous_depth then
            saturated_unit_weight * layer_thickness
          else
            let dry_thickness := gwt - previous_depth
            let submerged_thickness := layer_thickness - dry_thickness
            dry_unit_weight * dry_thickness + saturated_unit_weight * submerged_thickness
        (normalLoop gwt depth (previous_depth + layer_thickness) rest).map
          (fun s => contribution + s)

/-- SoilProfile.calc_normal_stress. -/
def SoilProfile.calc_normal_stress (p : SoilProfile) (depth : ℚ) :
    Except String ℚ :=
  match p.ground_water_level with
  | none => .error "Ground water level must be set"
  | some gwt =>
    let layer_index := p.get_layer_index depth
    normalLoop gwt depth 0 (p.layers.take (layer_index + 1).toNat)

/-- SoilProfile.calc_effective_stress: normal stress above or at the water
table, otherwise normal stress minus hydrostatic pore pressure. -/
def SoilProfile.calc_effective_stress (p : SoilProfile) (depth : ℚ) :
    Except String ℚ :=
  match p.ground_water_level with
  | none => .error "Ground water level must be set"
  | some g =>
    (p.calc_normal_stress depth).map
      (fun normal_stress =>
        if g ≥ depth then normal_stress
        else normal_stress - (depth - g) * (981/1000))

/-- SoilProfile.validate: rejects an empty profile, then validates the
requested fields of every layer and the ground water level. -/
def SoilProfile.validate (p : SoilProfile) (fields : List String) :
    Except ValidationError Unit :=
  if p.layers = [] then
    .error ⟨"soil_profile.empty", "Soil profile must contain at least one layer."⟩
  else do
    p.layers.forM (fun l => l.validate_fields fields)
    validate_field "ground_water_level" p.ground_water_level (some 0) none "soil_profile"

/-- Stress contribution of the depth interval [top, bot] for a layer with
the given dry and saturated unit weights, split at the water table. -/
def segStress (gwt dry sat top bot : ℚ) : ℚ :=
  if gwt ≥ bot then dry * (bot - top)
  else if gwt ≤ top then sat * (bot - top)
  else dry * (gwt - top) + sat * (bot - gwt)

/-! ## Spec-side definitions (refinement comparisons)

These definitions follow the wording of the specification, not the source,
and exist only to be compared against the embedded source functions. -/

/-- Rounding rule claimed by the spec for NValue arithmetic: add 0.5 and
take the integer part (Python `int`, truncation), ties rounding up. -/
def specRoundHalfUp (x : ℚ) : ℤ := pyInt (x + 1/2)

/-- The shared depth-lookup rule of spec §4.3 applied to an SPT experiment:
first blow whose recorded depth is ≥ the query depth, else the last blow. -/
def specSPTLookup (e : SPTExp) (d : ℚ) : Option SPTBlow :=
  match e.blows.find? (fun b => pyGeOpt b.depth d) with
  | some b => some b
  | none => e.blows.getLast?

/-- The gather step claimed by the spec for SPT idealization: the n channel
of every experiment's looked-up record, dropping experiments without it. -/
def specSPTGatherN (exps : List SPTExp) (d : ℚ) : List NValue :=
  (exps.filterMap (fun e => specSPTLookup e d)).filterMap (fun b => b.n)

/-- The per-depth reduction loop of the spec-described SPT idealization
(claim C1): one record per depth, reduced over the lookup-based gather. -/
def specSPTReduceAll (spt : SPT) : List ℚ → Except String (List (ℚ × NValue))
  | [] => .ok []
  | d :: rest =>
    match sptSelect spt.idealization_method (specSPTGatherN spt.exps d) with
    | .error err => .error err
    | .ok n => (specSPTReduceAll spt rest).map (fun ps => (d, n) :: ps)

/-- The SPT idealization described by the spec (claim C1), over the sorted
union of all depths. -/
def specSPTIdealizedBlows (spt : SPT) : Except String (List (ℚ × NValue)) :=
  specSPTReduceAll spt
    (sortedUnion (spt.exps.flatMap (fun e => e.blows.filterMap (fun b => b.depth))))

/-! ## Concrete instances used by witnesses and counterexamples -/

/-- Two-experiment SPT collection with point-sample depths [1.5, 3.0] and
[1.5, 3.0, 4.5] under the MIN rule (the claim C1 scenario). -/
def sptC1 : SPT :=
  { exps := [SPTExp.new [SPTBlow.new (3/2) (.finite 10), SPTBlow.new 3 (.finite 5)] "e1",
             SPTExp.new [SPTBlow.new (3/2) (.finite 20), SPTBlow.new 3 (.finite 8),
                         SPTBlow.new (9/2) (.finite 30)] "e2"],
    idealization_method := .MIN }

/-- One layer of thickness 5.0 with dry unit weight 1.8, saturated unit
weight 2.0 and the ground water table at the surface (claim C2 scenario). -/
def profC2 : SoilProfile :=
  { layers := [{ thickness := some 5, dry_unit_weight := some (9/5),
                 saturated_unit_weight := some 2, depth := some 5, center := some (5/2) }],
    ground_water_level := some 0 }

/-- A soil profile with an empty layer list (claim C10 scenario). -/
def profC10 : SoilProfile := { layers := [], ground_water_level := some 1 }

/-- A two-layer profile carrying only thicknesses (claim C6 scenario). -/
def profC6 : SoilProfile :=
  { layers := [SoilLayer.new 2, SoilLayer.new 3], ground_water_level := some 1 }

/-- Two-experiment CPT collection with depths [1.5, 3.0] and
[1.5, 3.0, 4.5] under the MIN rule (claim C1 witness scenario). -/
def cptC1 : CPT :=
  { exps := [CPTExp.new [CPTLayer.new (3/2) 10 1 (some 0), CPTLayer.new 3 5 2 (some 0)] "e1",
             CPTExp.new [CPTLayer.new (3/2) 20 3 (some 0), CPTLayer.new 3 8 4 (some 0),
                         CPTLayer.new (9/2) 30 5 (some 0)] "e2"],
    idealization_method := .MIN }

/-- The same CPT collection with the two experiments swapped (claim C5). -/
def cptC1swap : CPT :=
  { exps := [CPTExp.new [CPTLayer.new (3/2) 20 3 (some 0), CPTLayer.new 3 8 4 (some 0),
                         CPTLayer.new (9/2) 30 5 (some 0)] "e2",
             CPTExp.new [CPTLayer.new (3/2) 10 1 (some 0), CPTLayer.new 3 5 2 (some 0)] "e1"],
    idealization_method := .MIN }

/-- Single-experiment SPT whose one blow is a Refusal, under the AVG rule
(claim C4 counterexample scenario). -/
def sptC4 : SPT :=
  { exps := [SPTExp.new [SPTBlow.new (3/2) .refusal] "e1"],
    idealization_method := .AVG }

/-- Single CPT experiment with strictly increasing depths and all channels
present (claim C4 witness scenario). -/
def cptC4e : CPTExp :=
  CPTExp.new [CPTLayer.new 1 5 1 (some (1/2)), CPTLayer.new 2 7 2 (some (3/4))] "e1"

/-- The claim C4 witness collection holding only `cptC4e`. -/
def cptC4 : CPT := { exps := [cptC4e], idealization_method := .AVG }

/-- Two single-blow SPT experiments whose first-encountered depths are out
of order (claim C5 counterexample scenario). -/
def sptC5a : SPT :=
  { exps := [SPTExp.new [SPTBlow.new 3 (.finite 10)] "e1",
             SPTExp.new [SPTBlow.new (3/2) (.finite 20)] "e2"],
    idealization_method := .MIN }

/-- The same two SPT experiments in the opposite order (claim C5). -/
def sptC5b : SPT :=
  { exps := [SPTExp.new [SPTBlow.new (3/2) (.finite 20)] "e2",
             SPTExp.new [SPTBlow.new 3 (.finite 10)] "e1"],
    idealization_method := .MIN }

/-- MASW model whose single experiment has a zero-thickness layer (claim C8
counterexample scenario). -/
def maswC8 : Masw :=
  { exps := [{ layers := [{ thickness := some 0, vs := some 100, vp := some 200 }],
               name := "e" }],
    idealization_method := .MIN }

/-- Well-formed two-experiment MASW model with thicknesses [2] and [1, 2]
(claim C7 witness scenario). -/
def maswC7 : Masw :=
  { exps := [{ layers := [MaswLayer.new 2 100 200], name := "e1" },
             { layers := [MaswLayer.new 1 150 250, MaswLayer.new 2 300 500], name := "e2" }],
    idealization_method := .MIN }

/-- The claim C7 witness model after depth recomputation. -/
def maswC7d : Masw :=
  { exps := [{ layers := [{ thickness := some 2, vs := some 100, vp := some 200,
                            depth := some 2 }], name := "e1" },
             { layers := [{ thickness := some 1, vs := some 150, vp := some 250,
                            depth := some 1 },
                          { thickness := some 2, vs := some 300, vp := some 500,
                            depth := some 3 }], name := "e2" }],
    idealization_method := .MIN }

/-- The idealized experiment of the claim C7 witness model. -/
def maswC7e : MaswExp :=
  { layers := [{ thickness := some 1, vs := some 100, vp := some 200, depth := some 1 },
               { thickness := some 1, vs := some 100, vp := some 200, depth := some 2 },
               { thickness := some 1, vs := some 100, vp := some 200, depth := some 3 }],
    name := "x" }

/-- CPT collection with zero experiments (claim C8). -/
def cptEmpty : CPT := { exps := [], idealization_method := .AVG }

/-- MASW model with zero experiments (claim C8). -/
def maswEmpty : Masw := { exps := [], idealization_method := .AVG }

/-- Two-layer profile with stored depths already computed and the water
table inside the second layer (claim C9 witness scenario). -/
def profC9 : SoilProfile :=
  { layers := [{ thickness := some 2, dry_unit_weight := some (9/5),
                 saturated_unit_weight := some 2, depth := some 2, center := some 1 },
               { thickness := some 3, dry_unit_weight := some (8/5),
                 saturated_unit_weight := some (19/10), depth := some 5, center := some (7/2) }],
    ground_water_level := some (5/2) }

/-! ## Properties of the shared helpers -/

/-- The sorted depth union is sorted. -/
theorem sortedUnion_sorted (xs : List ℚ) : (sortedUnion xs).Sorted (· ≤ ·) :=
  List.sorted_insertionSort _ _

/-- The sorted depth union has no duplicates. -/
theorem sortedUnion_nodup (xs : List ℚ) : (sortedUnion xs).Nodup :=
  ((List.perm_insertionSort (· ≤ ·) xs.dedup).nodup_iff).mpr (List.nodup_dedup xs)

/-- The sorted depth union is strictly increasing. -/
theorem sortedUnion_pairwise_lt (xs : List ℚ) : (sortedUnion xs).Pairwise (· < ·) :=
  ((sortedUnion_sorted xs).and (sortedUnion_nodup xs)).imp
    (fun h => lt_of_le_of_ne h.1 h.2)

/-- Membership in the sorted union is membership in the raw depth list. -/
theorem mem_sortedUnion {xs : List ℚ} {d : ℚ} : d ∈ sortedUnion xs ↔ d ∈ xs := by
  unfold sortedUnion
  rw [(List.perm_insertionSort (· ≤ ·) xs.dedup).mem_iff, List.mem_dedup]

/-- A strictly increasing list is its own sorted union. -/
theorem sortedUnion_eq_self {xs : List ℚ} (h : xs.Pairwise (· < ·)) :
    sortedUnion xs = xs := by
  unfold sortedUnion
  rw [List.dedup_eq_self.mpr (h.imp ne_of_lt)]
  exact List.Sorted.insertionSort_eq (h.imp le_of_lt)

/-- Permuting the raw depth list does not change the sorted union. -/
theorem sortedUnion_perm_congr {xs ys : List ℚ} (h : xs.Perm ys) :
    sortedUnion xs = sortedUnion ys :=
  List.eq_of_perm_of_sorted
    ((List.perm_insertionSort _ _).trans (h.dedup.trans (List.perm_insertionSort _ _).symm))
    (sortedUnion_sorted xs) (sortedUnion_sorted ys)

/-- The depth-lookup guard accepts a recorded depth at or below the target. -/
theorem pyGeOpt_of_le {x d : ℚ} (h : d ≤ x) : pyGeOpt (some x) d = true := by
  simp [pyGeOpt, h]

/-- The depth-lookup guard rejects a recorded depth above the target. -/
theorem pyGeOpt_of_not_le {x d : ℚ} (h : ¬ d ≤ x) : pyGeOpt (some x) d = false := by
  simp [pyGeOpt, h]

/-- The depth-lookup guard rejects a missing depth. -/
theorem pyGeOpt_none (d : ℚ) : pyGeOpt none d = false := rfl

/-- The Python min fold returns an element of the list that bounds every
element from below. -/
theorem foldl_min_spec (v : ℚ) (vs : List ℚ) :
    vs.foldl min v ∈ v :: vs ∧ ∀ x ∈ v :: vs, vs.foldl min v ≤ x := by
  induction vs generalizing v with
  | nil =>
    refine ⟨List.mem_cons_self v [], fun x hx => ?_⟩
    simp only [List.foldl_nil]
    simp only [List.mem_singleton] at hx
    exact le_of_eq hx.symm
  | cons w ws ih =>
    have h := ih (min v w)
    have hfold : (w :: ws).foldl min v = ws.foldl min (min v w) := rfl
    constructor
    · rw [hfold]
      rcases List.mem_cons.mp h.1 with hm | hm
      · rcases min_choice v w with hc | hc
        · rw [hm, hc]; exact List.mem_cons_self _ _
        · rw [hm, hc]; exact List.mem_cons_of_mem _ (List.mem_cons_self _ _)
      · exact List.mem_cons_of_mem _ (List.mem_cons_of_mem _ hm)
    · intro x hx
      rw [hfold]
      rcases List.mem_cons.mp hx with rfl | hx'
      · exact le_trans (h.2 _ (List.mem_cons_self _ _)) (min_le_left _ _)
      · rcases List.mem_cons.mp hx' with rfl | hx''
        · exact le_trans (h.2 _ (List.mem_cons_self _ _)) (min_le_right _ _)
        · exact h.2 x (List.mem_cons_of_mem _ hx'')

/-- The Python max fold returns an element of the list that bounds every
element from above. -/
theorem foldl_max_spec (v : ℚ) (vs : List ℚ) :
    vs.foldl max v ∈ v :: vs ∧ ∀ x ∈ v :: vs, x ≤ vs.foldl max v := by
  induction vs generalizing v with
  | nil =>
    refine ⟨List.mem_cons_self v [], fun x hx => ?_⟩
    simp only [List.foldl_nil]
    simp only [List.mem_singleton] at hx
    exact le_of_eq hx
  | cons w ws ih =>
    have h := ih (max v w)
    have hfold : (w :: ws).foldl max v = ws.foldl max (max v w) := rfl
    constructor
    · rw [hfold]
      rcases List.mem_cons.mp h.1 with hm | hm
      · rcases max_choice v w with hc | hc
        · rw [hm, hc]; exact List.mem_cons_self _ _
        · rw [hm, hc]; exact List.mem_cons_of_mem _ (List.mem_cons_self _ _)
      · exact List.mem_cons_of_mem _ (List.mem_cons_of_mem _ hm)
    · intro x hx
      rw [hfold]
      rcases List.mem_cons.mp hx with rfl | hx'
      · exact le_trans (le_max_left _ _) (h.2 _ (List.mem_cons_self _ _))
      · rcases List.mem_cons.mp hx' with rfl | hx''
        · exact le_trans (le_max_right _ _) (h.2 _ (List.mem_cons_self _ _))
        · exact h.2 x (List.mem_cons_of_mem _ hx'')

/-- The MIN/AVG/MAX reduction is invariant under permutation of the
gathered values. -/
theorem get_mode_value_perm (mode : SelectionMethod) {l₁ l₂ : List ℚ}
    (h : l₁.Perm l₂) : get_mode_value mode l₁ = get_mode_value mode l₂ := by
  cases l₁ with
  | nil =>
    have : l₂ = [] := h.symm.eq_nil
    rw [this]
  | cons v vs =>
    cases l₂ with
    | nil => exact absurd h.eq_nil (by simp)
    | cons w ws =>
      cases mode with
      | MIN =>
        have s₁ := foldl_min_spec v vs
        have s₂ := foldl_min_spec w ws
        show vs.foldl min v = ws.foldl min w
        exact le_antisymm
          (s₁.2 _ (h.symm.subset s₂.1))
          (s₂.2 _ (h.subset s₁.1))
      | AVG =>
        show (v :: vs).sum / ((v :: vs).length : ℚ) =
          (w :: ws).sum / ((w :: ws).length : ℚ)
        rw [h.sum_eq, h.length_eq]
      | MAX =>
        have s₁ := foldl_max_spec v vs
        have s₂ := foldl_max_spec w ws
        show vs.foldl max v = ws.foldl max w
        exact le_antisymm
          (s₂.2 _ (h.subset s₁.1))
          (s₁.2 _ (h.symm.subset s₂.1))

/-- Reducing a single gathered value returns it, under every rule. -/
theorem get_mode_value_single (mode : SelectionMethod) (v : ℚ) :
    get_mode_value mode [v] = v := by
  cases mode <;> simp [get_mode_value]

/-! ## Claim C3 -/

/-- Claim C3 counterexample: the source rounds with math.ceil, not by adding
0.5 and truncating; at n = 5 and factor 9/4 (exact in binary floating
point) mul_by_f64 returns 12 while the claimed half-up rounding gives 11,
and add_f64 at n = 5, x = 1/4 returns 6 while half-up gives 5. -/
theorem claims_C3_counterexample :
    NValue.mul_by_f64 (.finite 5) (9/4) ≠ .finite (specRoundHalfUp ((5 : ℚ) * (9/4)))
    ∧ NValue.add_f64 (.finite 5) (1/4) ≠ .finite (specRoundHalfUp ((5 : ℚ) + 1/4)) := by
  have hmul : NValue.mul_by_f64 (.finite 5) (9/4) = .finite 12 := by
    show NValue.finite ⌈(5 : ℚ) * (9/4)⌉ = .finite 12
    have : ⌈(5 : ℚ) * (9/4)⌉ = 12 := by
      rw [Int.ceil_eq_iff]
      norm_num
    rw [this]
  have hadd : NValue.add_f64 (.finite 5) (1/4) = .finite 6 := by
    show NValue.finite ⌈(5 : ℚ) + 1/4⌉ = .finite 6
    have : ⌈(5 : ℚ) + 1/4⌉ = 6 := by
      rw [Int.ceil_eq_iff]
      norm_num
    rw [this]
  have hs1 : specRoundHalfUp ((5 : ℚ) * (9/4)) = 11 := by
    unfold specRoundHalfUp pyInt
    rw [if_pos (by norm_num), Int.floor_eq_iff]
    norm_num
  have hs2 : specRoundHalfUp ((5 : ℚ) + 1/4) = 5 := by
    unfold specRoundHalfUp pyInt
    rw [if_pos (by norm_num), Int.floor_eq_iff]
    norm_num
  rw [hmul, hadd, hs1, hs2]
  exact ⟨by decide, by decide⟩

/-- Claim C3 (amended): for a finite operand, mul_by_f64 and add_f64 return
the ceiling (least integer upper bound) of the exact product and sum
respectively; a Refusal operand is infectious for both. -/
theorem claims_C3 : ∀ (n : ℤ) (f : ℚ),
    NValue.mul_by_f64 .refusal f = .refusal
    ∧ NValue.add_f64 .refusal f = .refusal
    ∧ (∃ m : ℤ, NValue.mul_by_f64 (.finite n) f = .finite m
        ∧ (n : ℚ) * f ≤ (m : ℚ) ∧ ∀ k : ℤ, (n : ℚ) * f ≤ (k : ℚ) → m ≤ k)
    ∧ (∃ m : ℤ, NValue.add_f64 (.finite n) f = .finite m
        ∧ (n : ℚ) + f ≤ (m : ℚ) ∧ ∀ k : ℤ, (n : ℚ) + f ≤ (k : ℚ) → m ≤ k) := by
  intro n f
  refine ⟨rfl, rfl,
    ⟨⌈(n : ℚ) * f⌉, rfl, Int.le_ceil _, fun k hk => Int.ceil_le.mpr hk⟩,
    ⟨⌈(n : ℚ) + f⌉, rfl, Int.le_ceil _, fun k hk => Int.ceil_le.mpr hk⟩⟩

/-! ## Claim C2 -/

/-- Claim C2: with the ground water level set, effective stress equals
normal stress when the water table is at or below the query point, and
normal stress minus the hydrostatic pore pressure (depth − GWT) × 0.981
otherwise, with any stress-computation failure propagated unchanged. -/
theorem claims_C2 : ∀ (p : SoilProfile) (g d : ℚ),
    p.ground_water_level = some g →
    p.calc_effective_stress d = (p.calc_normal_stress d).map
      (fun normal_stress =>
        if g ≥ d then normal_stress
        else normal_stress - (d - g) * (981/1000)) := by
  intro p g d h
  unfold SoilProfile.calc_effective_stress
  rw [h]

/-- Claim C2 witness: the one-layer profile with thickness 5.0, dry 1.8,
saturated 2.0 and GWT 0.0 follows the effective-stress rule, and has
normal stress 10.0 and effective stress 5.095 at depth 5.0. -/
theorem claims_C2_witness :
    profC2.ground_water_level = some 0
    ∧ profC2.calc_effective_stress 5 = (profC2.calc_normal_stress 5).map
        (fun normal_stress =>
          if (0 : ℚ) ≥ 5 then normal_stress
          else normal_stress - (5 - 0) * (981/1000))
    ∧ profC2.calc_normal_stress 5 = .ok 10
    ∧ profC2.calc_effective_stress 5 = .ok (5095/1000) := by
  refine ⟨rfl, claims_C2 profC2 0 5 rfl, ?_, ?_⟩
  · norm_num [profC2, SoilProfile.calc_normal_stress, SoilProfile.get_layer_index,
      List.findIdx?, pyGeOpt, normalLoop, Except.map]
  · norm_num [profC2, SoilProfile.calc_effective_stress, SoilProfile.calc_normal_stress,
      SoilProfile.get_layer_index, List.findIdx?, pyGeOpt, normalLoop, Except.map]

/-! ## Claim C10 -/

/-- Claim C10: on an empty layer list, get_layer_index returns -1 without
failing, get_layer_at_depth fails with an index error, and neither performs
the empty-profile validation of SoilProfile.validate (whose distinct error
carries the soil_profile.empty code). -/
theorem claims_C10 : ∀ (p : SoilProfile) (d : ℚ) (fields : List String),
    p.layers = [] →
    p.get_layer_index d = -1
    ∧ p.get_layer_at_depth d = .error "IndexError: list index out of range"
    ∧ p.validate fields =
        .error ⟨"soil_profile.empty", "Soil profile must contain at least one layer."⟩ := by
  intro p d fields h
  have hidx : p.get_layer_index d = -1 := by
    simp [SoilProfile.get_layer_index, h]
  refine ⟨hidx, ?_, ?_⟩
  · simp [SoilProfile.get_layer_at_depth, hidx, pyGet, h]
  · simp [SoilProfile.validate, h]

/-- Claim C10 witness: the concrete empty profile exhibits all three
behaviours at depth 2 with the field list consisting of thickness. -/
theorem claims_C10_witness :
    profC10.layers = []
    ∧ profC10.get_layer_index 2 = -1
    ∧ profC10.get_layer_at_depth 2 = .error "IndexError: list index out of range"
    ∧ profC10.validate ["thickness"] =
        .error ⟨"soil_profile.empty", "Soil profile must contain at least one layer."⟩ := by
  refine ⟨rfl, claims_C10 profC10 2 ["thickness"] rfl⟩

/-! ## Claim C6 -/

/-- The depth-calculation loop, run with accumulator `b` on layers whose
thicknesses are `ts`, succeeds, sets each depth to `b` plus the prefix sum
and each center to half a thickness above it, keeps thicknesses, and is a
fixed point on its own output. -/
theorem calcDepthsGo_spec (ls : List SoilLayer) (ts : List ℚ) (b : ℚ)
    (h : ls.map SoilLayer.thickness = ts.map some) :
    ∃ ls', calcDepthsGo b ls = .ok ls'
      ∧ ls'.length = ls.length
      ∧ ls'.map SoilLayer.thickness = ts.map some
      ∧ (∀ i, i < ls'.length →
          (ls'.getD i {}).depth = some (b + (ts.take (i+1)).sum)
          ∧ (ls'.getD i {}).center = some (b + (ts.take (i+1)).sum - ts.getD i 0 / 2))
      ∧ calcDepthsGo b ls' = .ok ls' := by
  induction ls generalizing ts b with
  | nil =>
    cases ts with
    | nil => exact ⟨[], rfl, rfl, rfl, fun i hi => absurd hi (by simp), rfl⟩
    | cons t ts' => simp at h
  | cons layer rest ih =>
    cases ts with
    | nil => simp at h
    | cons t ts' =>
      simp only [List.map_cons, List.cons.injEq] at h
      obtain ⟨hth, hrest⟩ := h
      obtain ⟨rs', hgo, hlen, hmap, hidx, hidem⟩ := ih ts' (b + t) hrest
      refine ⟨{ layer with center := some (b + t / 2), depth := some (b + t) } :: rs',
        ?_, ?_, ?_, ?_, ?_⟩
      · simp only [calcDepthsGo, hth, hgo, Except.map]
      · simp [hlen]
      · simp only [List.map_cons, hmap, List.cons.injEq]
        exact ⟨hth, trivial⟩
      · intro i hi
        match i with
        | 0 =>
          constructor
          · simp only [List.getD, List.get?_cons_zero, Option.getD_some, List.take,
              List.sum_cons, List.sum_nil]
            exact congrArg some (by ring)
          · simp only [List.getD, List.get?_cons_zero, Option.getD_some, List.take,
              List.sum_cons, List.sum_nil]
            exact congrArg some (by ring)
        | i + 1 =>
          have hi' : i < rs'.length := by
            simpa using Nat.lt_of_succ_lt_succ hi
          obtain ⟨hd, hc⟩ := hidx i hi'
          constructor
          · simp only [List.getD_cons_succ, List.take_succ_cons, List.sum_cons, hd]
            exact congrArg some (by ring)
          · simp only [List.getD_cons_succ, List.take_succ_cons, List.sum_cons, hc]
            exact congrArg some (by ring)
      · simp only [calcDepthsGo, hth, hidem, Except.map]

/-- Claim C6: when every layer has a thickness, calc_layer_depths succeeds;
afterwards layer i has depth equal to the sum of the first i+1 thicknesses
and center equal to that depth minus half its own thickness, and running
calc_layer_depths again returns the same profile unchanged (idempotence). -/
theorem claims_C6 : ∀ (p : SoilProfile) (ts : List ℚ),
    p.layers.map SoilLayer.thickness = ts.map some →
    ∃ p', p.calc_layer_depths = .ok p'
      ∧ p'.layers.length = p.layers.length
      ∧ (∀ i, i < p'.layers.length →
          (p'.layers.getD i {}).depth = some ((ts.take (i+1)).sum)
          ∧ (p'.layers.getD i {}).center =
              some ((ts.take (i+1)).sum - ts.getD i 0 / 2))
      ∧ p'.calc_layer_depths = .ok p' := by
  intro p ts h
  by_cases hemp : p.layers = []
  · have hok : p.calc_layer_depths = .ok p := by
      simp [SoilProfile.calc_layer_depths, hemp]
    exact ⟨p, hok, rfl, fun i hi => absurd hi (by simp [hemp]), hok⟩
  · obtain ⟨ls', hgo, hlen, hmap, hidx, hidem⟩ := calcDepthsGo_spec p.layers ts 0 h
    have hne : ls' ≠ [] := by
      intro hnil
      exact hemp (List.length_eq_zero.mp (by rw [← hlen, hnil]; rfl))
    refine ⟨{ p with layers := ls' }, ?_, hlen, ?_, ?_⟩
    · simp [SoilProfile.calc_layer_depths, hemp, hgo, Except.map]
    · intro i hi
      obtain ⟨hd, hc⟩ := hidx i hi
      constructor
      · rw [hd]; exact congrArg some (by ring)
      · rw [hc]; exact congrArg some (by ring)
    · simp [SoilProfile.calc_layer_depths, hne, hidem, Except.map]

/-- Claim C6 witness: the two-layer profile with thicknesses [2, 3]
satisfies the hypothesis and hence the full conclusion. -/
theorem claims_C6_witness :
    profC6.layers.map SoilLayer.thickness = [(2 : ℚ), 3].map some
    ∧ ∃ p', profC6.calc_layer_depths = .ok p'
      ∧ p'.layers.length = profC6.layers.length
      ∧ (∀ i, i < p'.layers.length →
          (p'.layers.getD i {}).depth = some (([(2 : ℚ), 3].take (i+1)).sum)
          ∧ (p'.layers.getD i {}).center =
              some (([(2 : ℚ), 3].take (i+1)).sum - [(2 : ℚ), 3].getD i 0 / 2))
      ∧ p'.calc_layer_depths = .ok p' :=
  ⟨rfl, claims_C6 profC6 [2, 3] rfl⟩

/-! ## MASW infrastructure -/

/-- The depth-calculation loop of MASW only writes the depth field:
thickness, vs and vp are returned unchanged. -/
theorem maswDepthsGo_fields {ls : List MaswLayer} :
    ∀ {b : ℚ} {ls' : List MaswLayer}, maswDepthsGo b ls = .ok ls' →
    ls'.map (fun l => (l.thickness, l.vs, l.vp)) =
      ls.map (fun l => (l.thickness, l.vs, l.vp)) := by
  induction ls with
  | nil =>
    intro b ls' h
    simp only [maswDepthsGo] at h
    injection h with h'
    rw [← h']
  | cons a rest ih =>
    intro b ls' h
    cases hth : a.thickness with
    | none =>
      simp only [maswDepthsGo, hth] at h
      exact absurd h (by simp)
    | some t =>
      simp only [maswDepthsGo, hth] at h
      by_cases hpos : t ≤ 0
      · rw [if_pos hpos] at h; exact absurd h (by simp)
      · rw [if_neg hpos] at h
        cases hgo : maswDepthsGo (b + t) rest with
        | error msg => rw [hgo] at h; exact absurd h (by simp [Except.map])
        | ok rs =>
          rw [hgo] at h
          simp only [Except.map] at h
          injection h with h'
          rw [← h']
          simp only [List.map_cons, List.cons.injEq]
          exact ⟨by rw [hth], ih hgo⟩

/-- The MASW depth loop succeeds whenever every layer carries a positive
thickness. -/
theorem maswDepthsGo_ok {ls : List MaswLayer}
    (h : ∀ l ∈ ls, ∃ t, l.thickness = some t ∧ 0 < t) :
    ∀ b, ∃ ls', maswDepthsGo b ls = .ok ls' := by
  induction ls with
  | nil => exact fun b => ⟨[], rfl⟩
  | cons a rest ih =>
    intro b
    obtain ⟨t, hth, hpos⟩ := h a (List.mem_cons_self a rest)
    obtain ⟨rs, hgo⟩ := ih (fun l hl => h l (List.mem_cons_of_mem a hl)) (b + t)
    refine ⟨{ a with depth := some (b + t) } :: rs, ?_⟩
    simp only [maswDepthsGo, hth, if_neg (not_le.mpr hpos), hgo, Except.map]

/-- A successful MaswExp.new keeps the given name and the (thickness, vs, vp)
projection of the given layers. -/
theorem maswExp_new_spec {layers : List MaswLayer} {name : String} {e : MaswExp}
    (h : MaswExp.new layers name = .ok e) :
    e.name = name
    ∧ e.layers.map (fun l => (l.thickness, l.vs, l.vp)) =
        layers.map (fun l => (l.thickness, l.vs, l.vp)) := by
  unfold MaswExp.new MaswExp.calc_depths at h
  by_cases hemp : layers = []
  · subst hemp
    rw [if_pos rfl] at h
    injection h with h'
    rw [← h']
    exact ⟨rfl, rfl⟩
  · rw [if_neg hemp] at h
    cases hgo : maswDepthsGo 0 layers with
    | error msg => rw [hgo] at h; exact absurd h (by simp [Except.map])
    | ok rs =>
      rw [hgo] at h
      simp only [Except.map] at h
      injection h with h'
      rw [← h']
      exact ⟨rfl, maswDepthsGo_fields hgo⟩

/-- MaswExp.new succeeds whenever every layer carries a positive thickness. -/
theorem maswExp_new_ok {layers : List MaswLayer} (name : String)
    (h : ∀ l ∈ layers, ∃ t, l.thickness = some t ∧ 0 < t) :
    ∃ e, MaswExp.new layers name = .ok e := by
  unfold MaswExp.new MaswExp.calc_depths
  by_cases hemp : layers = []
  · subst hemp
    exact ⟨_, by rw [if_pos rfl]⟩
  · obtain ⟨ls', hgo⟩ := maswDepthsGo_ok h 0
    exact ⟨_, by rw [if_neg hemp, hgo]; rfl⟩

/-- MaswExp.calc_depths succeeds whenever every layer carries a positive
thickness. -/
theorem maswExp_calc_depths_ok {e : MaswExp}
    (h : ∀ l ∈ e.layers, ∃ t, l.thickness = some t ∧ 0 < t) :
    ∃ e', e.calc_depths = .ok e' := by
  unfold MaswExp.calc_depths
  by_cases hemp : e.layers = []
  · exact ⟨e, by rw [if_pos hemp]⟩
  · obtain ⟨ls', hgo⟩ := maswDepthsGo_ok h 0
    exact ⟨_, by rw [if_neg hemp, hgo]; rfl⟩

/-- Depth recomputation across a whole model succeeds under the same
positive-thickness condition. -/
theorem masw_calc_depths_exists : ∀ (es : List MaswExp),
    (∀ e ∈ es, ∀ l ∈ e.layers, ∃ t, l.thickness = some t ∧ 0 < t) →
    ∃ es', maswMapCalc es = .ok es' := by
  intro es
  induction es with
  | nil => exact fun _ => ⟨[], rfl⟩
  | cons e rest ih =>
    intro h
    obtain ⟨e', he⟩ := maswExp_calc_depths_ok (h e (List.mem_cons_self e rest))
    obtain ⟨rs', hrest⟩ := ih (fun x hx l hl => h x (List.mem_cons_of_mem e hx) l hl)
    exact ⟨e' :: rs', by simp only [maswMapCalc, he, hrest, Except.map]⟩

/-- Consecutive elements of a strictly increasing list are a positive
distance apart. -/
theorem pairwise_lt_zip_tail {u : List ℚ} (h : u.Pairwise (· < ·)) :
    ∀ p ∈ u.zip u.tail, 0 < p.2 - p.1 := by
  induction u with
  | nil => intro p hp; simp at hp
  | cons x rest ih =>
    cases rest with
    | nil => intro p hp; simp at hp
    | cons y rest' =>
      intro p hp
      obtain ⟨hx, htail⟩ := List.pairwise_cons.mp h
      simp only [List.tail_cons, List.zip_cons_cons] at hp
      rcases List.mem_cons.mp hp with rfl | hp'
      · exact sub_pos.mpr (hx y (List.mem_cons_self y rest'))
      · exact ih htail p (by simpa [List.zip] using hp')

/-- Masw.get_idealized_exp succeeds whenever every source layer carries a
positive thickness. -/
theorem masw_idealized_ok (m : Masw) (name : String)
    (h : ∀ e ∈ m.exps, ∀ l ∈ e.layers, ∃ t, l.thickness = some t ∧ 0 < t) :
    ∃ e, m.get_idealized_exp name = .ok e := by
  by_cases hemp : m.exps = []
  · unfold Masw.get_idealized_exp
    rw [if_pos hemp]
    exact maswExp_new_ok name (by intro l hl; simp at hl)
  · obtain ⟨es', hes⟩ := masw_calc_depths_exists m.exps h
    unfold Masw.get_idealized_exp Masw.calc_depths
    rw [if_neg hemp, hes]
    simp only [Except.map]
    apply maswExp_new_ok
    intro l hl
    rw [maswIdealLayers, List.mem_map] at hl
    obtain ⟨p, hp, rfl⟩ := hl
    exact ⟨p.2 - p.1, rfl, pairwise_lt_zip_tail (sortedUnion_pairwise_lt _) p hp⟩

/-! ## Claim C8 -/

/-- Claim C8 counterexample: Masw.get_idealized_exp can raise — a source
layer of thickness 0 makes the internal calc_depths step fail. -/
theorem claims_C8_counterexample :
    maswC8.get_idealized_exp "x" =
      .error "Thickness of MASW experiment must be greater than zero." := by
  have hcd : maswC8.calc_depths =
      .error "Thickness of MASW experiment must be greater than zero." := by
    unfold Masw.calc_depths maswMapCalc MaswExp.calc_depths maswDepthsGo maswC8
    norm_num [Except.map]
  unfold Masw.get_idealized_exp
  rw [if_neg (by simp [maswC8]), hcd]

/-- Claim C8 (amended): CPT idealization is total and returns an empty named
experiment for zero experiments; MASW idealization also returns an empty
named experiment for zero experiments, reduces an empty gather to 0.0 under
every rule, and succeeds whenever every source layer has a positive
thickness — but it fails when a source layer has a missing or non-positive
thickness. -/
theorem claims_C8 :
    (∀ (c : CPT) (name : String), c.exps = [] →
      c.get_idealized_exp name = CPTExp.new [] name)
    ∧ (∀ (m : Masw) (name : String), m.exps = [] →
        m.get_idealized_exp name = .ok { layers := [], name := name })
    ∧ (∀ mode : SelectionMethod, get_mode_value mode [] = 0)
    ∧ (∀ (m : Masw) (name : String),
        (∀ e ∈ m.exps, ∀ l ∈ e.layers, ∃ t, l.thickness = some t ∧ 0 < t) →
        ∃ e, m.get_idealized_exp name = .ok e) := by
  refine ⟨?_, ?_, ?_, ?_⟩
  · intro c name h
    unfold CPT.get_idealized_exp
    rw [if_pos h]
  · intro m name h
    unfold Masw.get_idealized_exp
    rw [if_pos h]
    unfold MaswExp.new MaswExp.calc_depths
    rw [if_pos rfl]
  · intro mode; rfl
  · exact masw_idealized_ok

/-- Claim C8 witness: the empty CPT and MASW collections return empty named
experiments, an empty MIN gather reduces to 0, and the well-formed
two-experiment MASW model idealizes successfully. -/
theorem claims_C8_witness :
    cptEmpty.get_idealized_exp "i" = CPTExp.new [] "i"
    ∧ maswEmpty.get_idealized_exp "i" = .ok { layers := [], name := "i" }
    ∧ get_mode_value .MIN [] = 0
    ∧ ∃ e, maswC7.get_idealized_exp "x" = .ok e := by
  refine ⟨claims_C8.1 cptEmpty "i" rfl, claims_C8.2.1 maswEmpty "i" rfl,
    claims_C8.2.2.1 .MIN, claims_C8.2.2.2 maswC7 "x" ?_⟩
  intro e he l hl
  simp only [maswC7, List.mem_cons, List.not_mem_nil, or_false] at he
  rcases he with rfl | rfl
  · simp only [List.mem_cons, List.not_mem_nil, or_false] at hl
    subst hl
    exact ⟨2, rfl, by norm_num⟩
  · simp only [List.mem_cons, List.not_mem_nil, or_false] at hl
    rcases hl with rfl | rfl
    · exact ⟨1, rfl, by norm_num⟩
    · exact ⟨2, rfl, by norm_num⟩

/-! ## Claim C7 -/

/-- Claim C7: for a nonempty MASW collection whose idealization succeeds,
the result has one layer per interval between consecutive depths of the
sorted union (with the implicit 0.0 lower bound), with thickness equal to
the interval length and vs/vp equal to the rule-reduction of the midpoint
lookups across the recomputed experiments. -/
theorem claims_C7 : ∀ (m m' : Masw) (name : String) (e : MaswExp),
    m.exps ≠ [] →
    m.calc_depths = .ok m' →
    m.get_idealized_exp name = .ok e →
    e.name = name
    ∧ e.layers.length + 1 = (maswDepthUnion m'.exps).length
    ∧ (∀ i, i < e.layers.length →
        (e.layers.getD i {}).thickness =
          some ((maswDepthUnion m'.exps).getD (i+1) 0 -
                (maswDepthUnion m'.exps).getD i 0)
        ∧ (e.layers.getD i {}).vs =
          some (get_mode_value m.idealization_method
            (maswGather m'.exps (fun l => l.vs)
              (((maswDepthUnion m'.exps).getD i 0 +
                (maswDepthUnion m'.exps).getD (i+1) 0) / 2)))
        ∧ (e.layers.getD i {}).vp =
          some (get_mode_value m.idealization_method
            (maswGather m'.exps (fun l => l.vp)
              (((maswDepthUnion m'.exps).getD i 0 +
                (maswDepthUnion m'.exps).getD (i+1) 0) / 2)))) := by
  intro m m' name e hne hcd hid
  unfold Masw.get_idealized_exp at hid
  rw [if_neg hne, hcd] at hid
  obtain ⟨hname, hproj⟩ := maswExp_new_spec hid
  set u := maswDepthUnion m'.exps with hu
  have hulen : 1 ≤ u.length := by
    have : (0 : ℚ) ∈ u := by
      rw [hu, maswDepthUnion, mem_sortedUnion]
      exact List.mem_cons_self _ _
    exact List.length_pos.mpr (List.ne_nil_of_mem this)
  have hlay : maswIdealLayers m.idealization_method m'.exps =
      (u.zip u.tail).map (fun p =>
        MaswLayer.new (p.2 - p.1)
          (get_mode_value m.idealization_method
            (maswGather m'.exps (fun l => l.vs) ((p.1 + p.2) / 2)))
          (get_mode_value m.idealization_method
            (maswGather m'.exps (fun l => l.vp) ((p.1 + p.2) / 2)))) := rfl
  have hziplen : (u.zip u.tail).length = u.length - 1 := by
    rw [List.length_zip, List.length_tail]
    omega
  have hlen : e.layers.length = u.length - 1 := by
    have := congrArg List.length hproj
    simp only [List.length_map] at this
    rw [this, hlay, List.length_map, hziplen]
  refine ⟨hname, by omega, ?_⟩
  intro i hi
  have hiz : i < (u.zip u.tail).length := by omega
  have hi1 : i + 1 < u.length := by omega
  have hi0 : i < u.length := by omega
  have hit : i < u.tail.length := by rw [List.length_tail]; omega
  have hlen2 : i < (maswIdealLayers m.idealization_method m'.exps).length := by
    rw [hlay, List.length_map]; omega
  have hmaplen : i < (e.layers.map (fun l => (l.thickness, l.vs, l.vp))).length := by
    rw [List.length_map]; exact hi
  have h0 := List.getElem_of_eq hproj hmaplen
  rw [List.getElem_map, List.getElem_map] at h0
  have hzip_i : (u.zip u.tail)[i] = (u[i], u[i+1]) := by
    rw [List.getElem_zip, List.getElem_tail]
  have hideal_i : (maswIdealLayers m.idealization_method m'.exps)[i] =
      MaswLayer.new (u[i+1] - u[i])
        (get_mode_value m.idealization_method
          (maswGather m'.exps (fun l => l.vs) ((u[i] + u[i+1]) / 2)))
        (get_mode_value m.idealization_method
          (maswGather m'.exps (fun l => l.vp) ((u[i] + u[i+1]) / 2))) := by
    have h1 := List.getElem_of_eq hlay hlen2
    rw [List.getElem_map, hzip_i] at h1
    exact h1
  rw [hideal_i] at h0
  simp only [MaswLayer.new, Prod.mk.injEq] at h0
  obtain ⟨h1, h2, h3⟩ := h0
  rw [List.getD_eq_getElem _ _ hi, List.getD_eq_getElem _ _ hi0,
    List.getD_eq_getElem _ _ hi1]
  exact ⟨h1, h2, h3⟩

/-- Claim C7 witness: the concrete two-experiment MASW model (thicknesses
[2] and [1, 2], MIN rule) satisfies every hypothesis of the theorem, its
depth recomputation and idealization evaluate to the stated experiments,
and the interval conclusion therefore holds for it. -/
theorem claims_C7_witness :
    maswC7.exps ≠ []
    ∧ maswC7.calc_depths = .ok maswC7d
    ∧ maswC7.get_idealized_exp "x" = .ok maswC7e
    ∧ (maswC7e.name = "x"
      ∧ maswC7e.layers.length + 1 = (maswDepthUnion maswC7d.exps).length
      ∧ (∀ i, i < maswC7e.layers.length →
          (maswC7e.layers.getD i {}).thickness =
            some ((maswDepthUnion maswC7d.exps).getD (i+1) 0 -
                  (maswDepthUnion maswC7d.exps).getD i 0)
          ∧ (maswC7e.layers.getD i {}).vs =
            some (get_mode_value maswC7.idealization_method
              (maswGather maswC7d.exps (fun l => l.vs)
                (((maswDepthUnion maswC7d.exps).getD i 0 +
                  (maswDepthUnion maswC7d.exps).getD (i+1) 0) / 2)))
          ∧ (maswC7e.layers.getD i {}).vp =
            some (get_mode_value maswC7.idealization_method
              (maswGather maswC7d.exps (fun l => l.vp)
                (((maswDepthUnion maswC7d.exps).getD i 0 +
                  (maswDepthUnion maswC7d.exps).getD (i+1) 0) / 2))))) := by
  have h1 : maswC7.exps ≠ [] := by simp [maswC7]
  have h2 : maswC7.calc_depths = .ok maswC7d := by
    norm_num [maswC7, maswC7d, Masw.calc_depths, maswMapCalc, MaswExp.calc_depths,
      maswDepthsGo, MaswLayer.new, Except.map, List.cons_ne_nil]
  have hsu : sortedUnion [(0 : ℚ), 2, 1, 3] = [0, 1, 2, 3] := by
    have hp : List.Perm [(0 : ℚ), 2, 1, 3] [0, 1, 2, 3] :=
      List.Perm.cons 0 (List.Perm.swap 1 2 [3])
    refine (sortedUnion_perm_congr hp).trans (sortedUnion_eq_self ?_)
    norm_num [List.pairwise_cons]
  have hlayers : maswIdealLayers SelectionMethod.MIN maswC7d.exps =
      [MaswLayer.new 1 100 200, MaswLayer.new 1 100 200, MaswLayer.new 1 100 200] := by
    unfold maswIdealLayers maswDepthUnion
    norm_num [maswC7d, hsu, maswGather, MaswExp.get_layer_at_depth, List.find?,
      pyGeOpt_of_le, pyGeOpt_of_not_le, get_mode_value, min_def, MaswLayer.new,
      List.zip_cons_cons, List.zip_nil_right, List.zip_nil_left,
      List.filterMap_cons, List.filterMap_nil]
  have h3 : maswC7.get_idealized_exp "x" = .ok maswC7e := by
    unfold Masw.get_idealized_exp
    rw [if_neg h1, h2]
    show MaswExp.new (maswIdealLayers SelectionMethod.MIN maswC7d.exps) "x" = .ok maswC7e
    rw [hlayers]
    norm_num [MaswExp.new, MaswExp.calc_depths, maswDepthsGo, MaswLayer.new,
      Except.map, maswC7e, List.cons_ne_nil]
  exact ⟨h1, h2, h3, claims_C7 maswC7 maswC7d "x" maswC7e h1 h2 h3⟩

/-! ## Claim C1 -/

/-- Searching a mapped depth list for the record at depth d finds the record
built from d, provided the builder stamps its argument as the depth. -/
theorem find_map_layer_at (us : List ℚ) (d : ℚ)
    (f : ℚ → CPTLayer) (hf : ∀ u, (f u).depth = some u) (hd : d ∈ us) :
    (us.map f).find? (fun l => decide (l.depth = some d)) = some (f d) := by
  induction us with
  | nil => simp at hd
  | cons u us' ih =>
    rw [List.map_cons]
    by_cases hu : u = d
    · subst hu
      exact List.find?_cons_of_pos _ (by simp [hf u])
    · rw [List.find?_cons_of_neg _ (by simp [hf u, hu])]
      rcases List.mem_cons.mp hd with rfl | hd'
      · exact absurd rfl hu
      · exact ih hd'

/-- Claim C1 (amended): for every CPT collection and every depth d of the
sorted depth union, the idealized experiment has a record at d whose
channels are the rule-reduction of the per-experiment lookups at d (the
lookup rule of §4.3), excluding experiments missing the channel; SPT and
PointLoad instead group values by exact depth equality, and MASW samples
interval midpoints, so the lookup-gather description holds only for CPT. -/
theorem claims_C1 : ∀ (c : CPT) (name : String) (d : ℚ),
    d ∈ c.depthUnion →
    (c.get_idealized_exp name).layers.find? (fun l => decide (l.depth = some d)) =
      some (CPTLayer.new d
        (get_mode_value c.idealization_method (c.gather (fun l => l.cone_resistance) d))
        (get_mode_value c.idealization_method (c.gather (fun l => l.sleeve_friction) d))
        (some (get_mode_value c.idealization_method (c.gather (fun l => l.pore_pressure) d)))) := by
  intro c name d hd
  have hne : c.exps ≠ [] := by
    intro h
    rw [CPT.depthUnion, CPT.allDepths, h] at hd
    simp [sortedUnion] at hd
  unfold CPT.get_idealized_exp
  rw [if_neg hne]
  exact find_map_layer_at _ d _ (fun u => rfl) hd

/-- Claim C1 counterexample: the claim's lookup-gather description is false
for SPT.  In the two-experiment MIN scenario with depths [1.5, 3.0] and
[1.5, 3.0, 4.5], the code's record at 4.5 carries 30 (only the second
experiment has a blow at exactly 4.5), while the spec-described lookup
gather reduces to 5 there (the first experiment's last blow covers 4.5). -/
theorem claims_C1_counterexample :
    (sptC1.get_idealized_exp "i").map (fun e => e.blows.map (fun b => (b.depth, b.n)))
      = .ok [(some ((3:ℚ)/2), some (NValue.finite 10)),
             (some (3:ℚ), some (NValue.finite 5)),
             (some ((9:ℚ)/2), some (NValue.finite 30))]
    ∧ specSPTIdealizedBlows sptC1
      = .ok [(((3:ℚ)/2), NValue.finite 10), ((3:ℚ), NValue.finite 5),
             (((9:ℚ)/2), NValue.finite 5)]
    ∧ (NValue.finite 30 ≠ NValue.finite 5) := by
  have hsu : sortedUnion [(3:ℚ)/2, 3, 3/2, 3, 9/2] = [3/2, 3, 9/2] := by
    unfold sortedUnion
    norm_num
  refine ⟨?_, ?_, by simp⟩
  · norm_num [sptC1, SPT.get_idealized_exp, SPT.buildDepthMap, addToDepthMap,
      SPTBlow.new, SPTExp.new, sptMapBlows, sptSelect, pyMinNV, nvalLt,
      Except.map]
  · unfold specSPTIdealizedBlows
    norm_num [sptC1, SPTBlow.new, SPTExp.new, List.filterMap_cons, hsu]
    norm_num [specSPTReduceAll, sptSelect, specSPTGatherN, specSPTLookup,
      List.find?, pyGeOpt_of_le, pyGeOpt_of_not_le, sptC1, SPTBlow.new,
      SPTExp.new, pyMinNV, nvalLt, Except.map, List.filterMap_cons]

/-- Claim C1 witness: in the two-experiment CPT MIN scenario with depths
[1.5, 3.0] and [1.5, 3.0, 4.5], depth 4.5 lies in the union and the record
found there carries the lookup-gathered minima; the idealized experiment
has exactly three records, at depths [1.5, 3.0, 4.5], whose channels are
the minima over the experiments covering each depth. -/
theorem claims_C1_witness :
    ((9:ℚ)/2) ∈ cptC1.depthUnion
    ∧ (cptC1.get_idealized_exp "i").layers.find?
        (fun l => decide (l.depth = some ((9:ℚ)/2))) =
      some (CPTLayer.new ((9:ℚ)/2)
        (get_mode_value cptC1.idealization_method
          (cptC1.gather (fun l => l.cone_resistance) ((9:ℚ)/2)))
        (get_mode_value cptC1.idealization_method
          (cptC1.gather (fun l => l.sleeve_friction) ((9:ℚ)/2)))
        (some (get_mode_value cptC1.idealization_method
          (cptC1.gather (fun l => l.pore_pressure) ((9:ℚ)/2)))))
    ∧ (cptC1.get_idealized_exp "i").layers.map
        (fun l => (l.depth, l.cone_resistance, l.sleeve_friction, l.pore_pressure)) =
      [(some ((3:ℚ)/2), some (10:ℚ), some (1:ℚ), some (0:ℚ)),
       (some (3:ℚ), some (5:ℚ), some (2:ℚ), some (0:ℚ)),
       (some ((9:ℚ)/2), some (5:ℚ), some (2:ℚ), some (0:ℚ))] := by
  have hmem : ((9:ℚ)/2) ∈ cptC1.depthUnion := by
    rw [CPT.depthUnion, mem_sortedUnion]
    norm_num [CPT.allDepths, cptC1, CPTLayer.new, CPTExp.new, List.filterMap_cons]
  have hunion : cptC1.depthUnion = [3/2, 3, 9/2] := by
    unfold CPT.depthUnion CPT.allDepths sortedUnion
    norm_num [cptC1, CPTLayer.new, CPTExp.new, List.filterMap_cons]
  refine ⟨hmem, claims_C1 cptC1 "i" (9/2) hmem, ?_⟩
  have hne : cptC1.exps ≠ [] := by simp [cptC1]
  unfold CPT.get_idealized_exp
  rw [if_neg hne]
  rw [hunion]
  norm_num [cptC1, CPT.gather, CPTExp.get_layer_at_depth, List.find?,
    pyGeOpt_of_le, pyGeOpt_of_not_le, get_mode_value, min_def,
    CPTLayer.new, CPTExp.new, List.getLast?, List.filterMap_cons, List.filterMap_nil]

/-! ## Claim C4 -/

/-- All-present depths survive filterMap as the plain depth list. -/
theorem filterMap_of_map_some : ∀ {ls : List CPTLayer} {ds : List ℚ},
    ls.map (fun l => l.depth) = ds.map some →
    ls.filterMap (fun l => l.depth) = ds := by
  intro ls
  induction ls with
  | nil =>
    intro ds h
    cases ds with
    | nil => rfl
    | cons d ds' => exact absurd h (by simp)
  | cons a rest ih =>
    intro ds h
    cases ds with
    | nil => exact absurd h (by simp)
    | cons d ds' =>
      simp only [List.map_cons, List.cons.injEq] at h
      obtain ⟨ha, hrest⟩ := h
      simp only [List.filterMap_cons, ha]
      rw [ih hrest]

/-- In an experiment with strictly increasing depths, the depth lookup at
the i-th depth returns exactly the i-th layer. -/
theorem cpt_find_self : ∀ (ls : List CPTLayer) (ds : List ℚ),
    ls.map (fun l => l.depth) = ds.map some →
    ds.Pairwise (· < ·) →
    ∀ i (hi : i < ls.length) (hd : i < ds.length),
    ls.find? (fun l => pyGeOpt l.depth (ds.get ⟨i, hd⟩)) = some (ls.get ⟨i, hi⟩) := by
  intro ls
  induction ls with
  | nil =>
    intro ds _ _ i hi
    exact absurd hi (by simp)
  | cons a rest ih =>
    intro ds hmap hpw i hi hd
    cases ds with
    | nil => exact absurd hmap (by simp)
    | cons d0 ds' =>
      simp only [List.map_cons, List.cons.injEq] at hmap
      obtain ⟨ha, hrest⟩ := hmap
      obtain ⟨hd0, hpw'⟩ := List.pairwise_cons.mp hpw
      match i with
      | 0 =>
        rw [List.find?_cons_of_pos _ (by rw [ha]; exact pyGeOpt_of_le le_rfl)]
        rfl
      | i + 1 =>
        have hi' : i < rest.length := by simpa using Nat.lt_of_succ_lt_succ hi
        have hd' : i < ds'.length := by simpa using Nat.lt_of_succ_lt_succ hd
        have hmem : ds'.get ⟨i, hd'⟩ ∈ ds' := List.get_mem ds' i hd'
        have hlt : d0 < ds'.get ⟨i, hd'⟩ := hd0 _ hmem
        show (a :: rest).find? (fun l => pyGeOpt l.depth (ds'.get ⟨i, hd'⟩)) =
          some (rest.get ⟨i, hi'⟩)
        rw [List.find?_cons_of_neg _
          (by rw [ha, pyGeOpt_of_not_le (not_le.mpr hlt)]; simp)]
        exact ih ds' hrest hpw' i hi' hd'

/-- Claim C4 counterexample: identity fails for SPT under AVG — the single
experiment carries one Refusal blow and the idealized experiment replaces
it with Finite(50). -/
theorem claims_C4_counterexample :
    (sptC4.get_idealized_exp "i").map (fun e => e.blows.map (fun b => (b.depth, b.n)))
      = .ok [(some ((3:ℚ)/2), some (NValue.finite 50))]
    ∧ sptC4.exps.map (fun e => e.blows.map (fun b => (b.depth, b.n)))
      = [[(some ((3:ℚ)/2), some NValue.refusal)]]
    ∧ (NValue.finite 50 ≠ NValue.refusal) := by
  refine ⟨?_, by simp [sptC4, SPTExp.new, SPTBlow.new], by simp⟩
  norm_num [sptC4, SPT.get_idealized_exp, SPT.buildDepthMap, addToDepthMap,
    SPTBlow.new, SPTExp.new, sptMapBlows, sptSelect, pyOrZero, NValue.to_option,
    pyInt, NValue.from_i32, Except.map]

/-- Claim C4 (amended): a CPT collection with a single experiment whose
depths are present and strictly increasing and whose channels are all
present reproduces that experiment's depths and channel values under every
selection rule; for SPT the identity fails when an AVG reduction meets a
Refusal blow (it becomes Finite(50)). -/
theorem claims_C4 : ∀ (e : CPTExp) (mode : SelectionMethod) (name : String) (ds : List ℚ),
    e.layers.map (fun l => l.depth) = ds.map some →
    ds.Pairwise (· < ·) →
    (∀ l ∈ e.layers, l.cone_resistance.isSome ∧ l.sleeve_friction.isSome
      ∧ l.pore_pressure.isSome) →
    ((CPT.mk [e] mode).get_idealized_exp name).name = name
    ∧ ((CPT.mk [e] mode).get_idealized_exp name).layers.map
        (fun l => (l.depth, l.cone_resistance, l.sleeve_friction, l.pore_pressure)) =
      e.layers.map
        (fun l => (l.depth, l.cone_resistance, l.sleeve_friction, l.pore_pressure)) := by
  intro e mode name ds hmap hpw hch
  have hne : (CPT.mk [e] mode).exps ≠ [] := by simp
  have hlen : e.layers.length = ds.length := by
    have := congrArg List.length hmap
    simpa using this
  have hfm : e.layers.filterMap (fun l => l.depth) = ds := filterMap_of_map_some hmap
  have hunion : (CPT.mk [e] mode).depthUnion = ds := by
    rw [CPT.depthUnion, CPT.allDepths]
    simp only [List.flatMap_cons, List.flatMap_nil, List.append_nil]
    rw [hfm]
    exact sortedUnion_eq_self hpw
  constructor
  · unfold CPT.get_idealized_exp
    rw [if_neg hne]
    rfl
  · unfold CPT.get_idealized_exp
    rw [if_neg hne]
    simp only [CPTExp.new]
    rw [hunion]
    apply List.ext_getElem
    · simp [hlen]
    · intro i h1 h2
      simp only [List.length_map] at h1 h2
      simp only [List.getElem_map]
      have hdi : (e.layers[i]).depth = some ds[i] := by
        have h0 := List.getElem_of_eq hmap (by simpa using h2)
        rw [List.getElem_map, List.getElem_map] at h0
        exact h0
      have hfind : e.layers.find? (fun l => pyGeOpt l.depth ds[i]) =
          some (e.layers[i]) := cpt_find_self e.layers ds hmap hpw i h2 h1
      have hlook : e.get_layer_at_depth ds[i] = e.layers[i] := by
        unfold CPTExp.get_layer_at_depth
        rw [hfind]
      obtain ⟨hqc, hfs, hu2⟩ := hch _ (List.getElem_mem h2)
      obtain ⟨qc, hqc'⟩ := Option.isSome_iff_exists.mp hqc
      obtain ⟨fs, hfs'⟩ := Option.isSome_iff_exists.mp hfs
      obtain ⟨u2, hu2'⟩ := Option.isSome_iff_exists.mp hu2
      have hg : ∀ (f : CPTLayer → Option ℚ) (v : ℚ), f (e.layers[i]) = some v →
          (CPT.mk [e] mode).gather f ds[i] = [v] := by
        intro f v hfe
        unfold CPT.gather
        simp only [List.map_cons, List.map_nil, hlook, List.filterMap_cons,
          List.filterMap_nil, hfe]
      rw [hg _ _ hqc', hg _ _ hfs', hg _ _ hu2', get_mode_value_single,
        get_mode_value_single, get_mode_value_single]
      simp only [CPTLayer.new]
      rw [hdi, hqc', hfs', hu2']

/-- Claim C4 witness: the single two-layer CPT experiment with depths [1, 2]
and all channels present is reproduced unchanged under the AVG rule. -/
theorem claims_C4_witness :
    cptC4e.layers.map (fun l => l.depth) = [(1:ℚ), 2].map some
    ∧ ([(1:ℚ), 2] : List ℚ).Pairwise (· < ·)
    ∧ (∀ l ∈ cptC4e.layers, l.cone_resistance.isSome ∧ l.sleeve_friction.isSome
        ∧ l.pore_pressure.isSome)
    ∧ ((CPT.mk [cptC4e] .AVG).get_idealized_exp "x").name = "x"
    ∧ ((CPT.mk [cptC4e] .AVG).get_idealized_exp "x").layers.map
        (fun l => (l.depth, l.cone_resistance, l.sleeve_friction, l.pore_pressure)) =
      cptC4e.layers.map
        (fun l => (l.depth, l.cone_resistance, l.sleeve_friction, l.pore_pressure)) := by
  have h1 : cptC4e.layers.map (fun l => l.depth) = [(1:ℚ), 2].map some := rfl
  have h2 : ([(1:ℚ), 2] : List ℚ).Pairwise (· < ·) := by
    norm_num [List.pairwise_cons]
  have h3 : ∀ l ∈ cptC4e.layers, l.cone_resistance.isSome ∧ l.sleeve_friction.isSome
      ∧ l.pore_pressure.isSome := by
    intro l hl
    simp only [cptC4e, CPTExp.new, CPTLayer.new, List.mem_cons, List.not_mem_nil,
      or_false] at hl
    rcases hl with rfl | rfl <;> simp
  obtain ⟨hname, hlayers⟩ := claims_C4 cptC4e .AVG "x" [1, 2] h1 h2 h3
  exact ⟨h1, h2, h3, hname, hlayers⟩

/-! ## Claim C5 -/

/-- A depth-stamping builder mapped over a depth list leaves exactly that
depth list behind under the depth projection. -/
theorem filterMap_depth_map_new : ∀ (us : List ℚ) (f : ℚ → CPTLayer),
    (∀ u, (f u).depth = some u) →
    (us.map f).filterMap (fun l => l.depth) = us := by
  intro us f hf
  induction us with
  | nil => rfl
  | cons u us' ih =>
    simp only [List.map_cons, List.filterMap_cons, hf u]
    rw [ih]

/-- The depths of an idealized CPT experiment are always emitted in
ascending order. -/
theorem cpt_idealized_sorted (c : CPT) (name : String) :
    List.Sorted (· ≤ ·)
      ((c.get_idealized_exp name).layers.filterMap (fun l => l.depth)) := by
  unfold CPT.get_idealized_exp
  by_cases hemp : c.exps = []
  · rw [if_pos hemp]
    simp [CPTExp.new]
  · rw [if_neg hemp]
    simp only [CPTExp.new]
    rw [filterMap_depth_map_new _ _ (fun u => rfl)]
    exact sortedUnion_sorted _

/-- Claim C5 (amended): CPT idealization is invariant under permutation of
the experiment list (given the same selection rule), and its records are
always emitted in ascending depth order; SPT idealization instead emits
records in first-encounter order of depths, which need not be ascending and
depends on the experiment order. -/
theorem claims_C5 : ∀ (c₁ c₂ : CPT) (name : String),
    c₁.exps.Perm c₂.exps →
    c₁.idealization_method = c₂.idealization_method →
    c₁.get_idealized_exp name = c₂.get_idealized_exp name
    ∧ List.Sorted (· ≤ ·)
        ((c₁.get_idealized_exp name).layers.filterMap (fun l => l.depth)) := by
  intro c₁ c₂ name hp hm
  refine ⟨?_, cpt_idealized_sorted c₁ name⟩
  have hunion : c₁.depthUnion = c₂.depthUnion := by
    unfold CPT.depthUnion CPT.allDepths
    exact sortedUnion_perm_congr (hp.flatMap_right _)
  have hgather : ∀ (f : CPTLayer → Option ℚ) (d : ℚ),
      get_mode_value c₁.idealization_method (c₁.gather f d) =
        get_mode_value c₂.idealization_method (c₂.gather f d) := by
    intro f d
    rw [hm]
    exact get_mode_value_perm _ ((hp.map _).filterMap _)
  unfold CPT.get_idealized_exp
  by_cases hemp : c₁.exps = []
  · have hemp₂ : c₂.exps = [] := by
      rw [hemp] at hp
      exact hp.symm.eq_nil
    rw [if_pos hemp, if_pos hemp₂]
  · have hemp₂ : c₂.exps ≠ [] := by
      intro h
      rw [h] at hp
      exact hemp hp.eq_nil
    rw [if_neg hemp, if_neg hemp₂, hunion]
    refine congrArg (fun L => CPTExp.new L name) ?_
    apply List.map_congr_left
    intro d hd
    rw [hgather, hgather, hgather]

/-- Claim C5 counterexample: two single-blow SPT experiments at depths 3.0
and 1.5.  With the experiments in that order the idealized records come out
at [3.0, 1.5] — not ascending — and swapping the experiment list changes
the output, so SPT idealization is neither sorted nor order-independent. -/
theorem claims_C5_counterexample :
    sptC5a.exps.Perm sptC5b.exps
    ∧ sptC5a.idealization_method = sptC5b.idealization_method
    ∧ (sptC5a.get_idealized_exp "i").map (fun e => e.blows.map (fun b => b.depth))
        = .ok [some (3:ℚ), some (3/2)]
    ∧ (sptC5b.get_idealized_exp "i").map (fun e => e.blows.map (fun b => b.depth))
        = .ok [some ((3:ℚ)/2), some 3]
    ∧ ¬ List.Sorted (· ≤ ·) [(3:ℚ), 3/2]
    ∧ sptC5a.get_idealized_exp "i" ≠ sptC5b.get_idealized_exp "i" := by
  have ha : (sptC5a.get_idealized_exp "i").map
      (fun e => e.blows.map (fun b => b.depth)) = .ok [some (3:ℚ), some (3/2)] := by
    norm_num [sptC5a, SPT.get_idealized_exp, SPT.buildDepthMap, addToDepthMap,
      SPTBlow.new, SPTExp.new, sptMapBlows, sptSelect, pyMinNV, nvalLt, Except.map]
  have hb : (sptC5b.get_idealized_exp "i").map
      (fun e => e.blows.map (fun b => b.depth)) = .ok [some ((3:ℚ)/2), some 3] := by
    norm_num [sptC5b, SPT.get_idealized_exp, SPT.buildDepthMap, addToDepthMap,
      SPTBlow.new, SPTExp.new, sptMapBlows, sptSelect, pyMinNV, nvalLt, Except.map]
  refine ⟨List.Perm.swap _ _ _, rfl, ha, hb, by norm_num [List.sorted_cons], ?_⟩
  intro h
  have hc := congrArg (Except.map (fun (e : SPTExp) => e.blows.map (fun b => b.depth))) h
  rw [ha, hb] at hc
  norm_num at hc

/-- Claim C5 witness: the two-experiment CPT MIN scenario and its swapped
version produce the same idealized experiment, whose record depths are
ascending. -/
theorem claims_C5_witness :
    cptC1.exps.Perm cptC1swap.exps
    ∧ cptC1.idealization_method = cptC1swap.idealization_method
    ∧ cptC1.get_idealized_exp "i" = cptC1swap.get_idealized_exp "i"
    ∧ List.Sorted (· ≤ ·)
        ((cptC1.get_idealized_exp "i").layers.filterMap (fun l => l.depth)) := by
  have hp : cptC1.exps.Perm cptC1swap.exps := List.Perm.swap _ _ _
  obtain ⟨heq, hsort⟩ := claims_C5 cptC1 cptC1swap "i" hp rfl
  exact ⟨hp, rfl, heq, hsort⟩

/-! ## Claim C9 -/

/-- The GWT-partitioned segment stress, written via the clamp of the water
table into the segment. -/
theorem segStress_clamp (g dry sat top bot : ℚ) (h : top ≤ bot) :
    segStress g dry sat top bot =
      dry * (min (max g top) bot - top) + sat * (bot - min (max g top) bot) := by
  unfold segStress
  split_ifs with h1 h2
  · have hb : bot ≤ max g top := le_trans h1 (le_max_left g top)
    rw [min_eq_right hb]
    try ring
  · rw [max_eq_right h2, min_eq_left h]
    try ring
  · have ht : top ≤ g := le_of_lt (not_le.mp h2)
    have hgb : g ≤ bot := le_of_lt (not_le.mp h1)
    rw [max_eq_left ht, min_eq_left hgb]
    try ring

/-- Segment stress is additive in the depth interval. -/
theorem segStress_add (g dry sat top mid bot : ℚ) (h1 : top ≤ mid) (h2 : mid ≤ bot) :
    segStress g dry sat top mid + segStress g dry sat mid bot =
      segStress g dry sat top bot := by
  rw [segStress_clamp g dry sat top mid h1, segStress_clamp g dry sat mid bot h2,
    segStress_clamp g dry sat top bot (le_trans h1 h2)]
  have hm : min (max g top) mid + min (max g mid) bot =
      min (max g top) bot + mid := by
    simp only [min_def, max_def]
    split_ifs <;> linarith
  linear_combination (dry - sat) * hm

/-- The stress loop on a single (hence partial, final) layer contributes the
segment stress of [previous_depth, query depth]. -/
theorem normalLoop_single (g d prev : ℚ) (layer : SoilLayer) (t : ℚ)
    (hth : layer.thickness = some t)
    (hw : ¬(layer.dry_unit_weight.getD 0 ≤ 1 ∧ layer.saturated_unit_weight.getD 0 ≤ 1)) :
    normalLoop g d prev [layer] =
      .ok (segStress g (layer.dry_unit_weight.getD 0)
        (layer.saturated_unit_weight.getD 0) prev d) := by
  unfold normalLoop
  simp only [hth, if_pos rfl, if_true]
  rw [if_neg hw]
  simp only [normalLoop, Except.map]
  have harith : prev + (d - prev) = d := by ring
  rw [harith]
  unfold segStress
  split_ifs <;> exact congrArg Except.ok (by ring)

/-- Extending the query depth of the stress loop beyond the covered
thickness adds exactly the last layer's segment stress over the extension. -/
theorem normalLoop_extend : ∀ (ls : List SoilLayer) (ts : List ℚ) (g prev d1 d2 : ℚ),
    ls ≠ [] →
    ls.map (fun l => l.thickness) = ts.map some →
    (∀ t ∈ ts, 0 < t) →
    (∀ l ∈ ls, ¬(l.dry_unit_weight.getD 0 ≤ 1 ∧ l.saturated_unit_weight.getD 0 ≤ 1)) →
    prev + ts.sum ≤ d1 → d1 ≤ d2 →
    normalLoop g d2 prev ls =
      (normalLoop g d1 prev ls).map
        (fun s => s + segStress g ((ls.getLast?.getD {}).dry_unit_weight.getD 0)
          ((ls.getLast?.getD {}).saturated_unit_weight.getD 0) d1 d2) := by
  intro ls
  induction ls with
  | nil => intro ts g prev d1 d2 hne; exact absurd rfl hne
  | cons a rest ih =>
    intro ts g prev d1 d2 hne hmap hpos hw hd1 hd2
    cases ts with
    | nil => exact absurd hmap (by simp)
    | cons t₀ ts' =>
      simp only [List.map_cons, List.cons.injEq] at hmap
      obtain ⟨hth, hrest⟩ := hmap
      have hwa := hw a (List.mem_cons_self a rest)
      cases rest with
      | nil =>
        have hts' : ts' = [] := by
          cases ts' with
          | nil => rfl
          | cons x xs => exact absurd hrest (by simp)
        subst hts'
        have ht₀ : 0 < t₀ := hpos t₀ (by simp)
        have hprev : prev ≤ d1 := by
          simp only [List.sum_cons, List.sum_nil, add_zero] at hd1
          linarith
        rw [normalLoop_single g d2 prev a t₀ hth hwa,
          normalLoop_single g d1 prev a t₀ hth hwa]
        simp only [Except.map, List.getLast?_singleton, Option.getD_some]
        exact congrArg Except.ok (segStress_add g _ _ prev d1 d2 hprev hd2).symm
      | cons b rest' =>
        have hrest_ne : (b :: rest') ≠ [] := by simp
        have hts'_ne : ts' ≠ [] := by
          intro h
          rw [h] at hrest
          exact absurd hrest (by simp)
        unfold normalLoop
        simp only [hth]
        rw [if_neg (by simp : ¬(b :: rest' = [])), if_neg (by simp : ¬(b :: rest' = []))]
        rw [if_neg hwa, if_neg hwa]
        have hih := ih ts' g (prev + t₀) d1 d2 hrest_ne hrest
          (fun t ht => hpos t (List.mem_cons_of_mem _ ht))
          (fun l hl => hw l (List.mem_cons_of_mem _ hl))
          (by
            rw [List.sum_cons] at hd1
            linarith)
          hd2
        rw [hih]
        simp only [List.getLast?_cons_cons]
        cases hv : normalLoop g d1 (prev + t₀) (b :: rest') with
        | error msg => rfl
        | ok s => exact congrArg Except.ok (by ring)

/-- A profile that calc_layer_depths maps to itself stores prefix-sum
depths. -/
theorem fixed_point_depths (p : SoilProfile) (ts : List ℚ)
    (hmap : p.layers.map (fun l => l.thickness) = ts.map some)
    (hfix : p.calc_layer_depths = .ok p) :
    ∀ i, i < p.layers.length →
      (p.layers.getD i {}).depth = some ((ts.take (i+1)).sum) := by
  intro i hi
  obtain ⟨ls', hgo, hlen, hm, hidx, hidem⟩ := calcDepthsGo_spec p.layers ts 0 hmap
  by_cases hemp : p.layers = []
  · rw [hemp] at hi
    exact absurd hi (by simp)
  · unfold SoilProfile.calc_layer_depths at hfix
    rw [if_neg hemp, hgo] at hfix
    simp only [Except.map] at hfix
    injection hfix with hfix'
    have hls : ls' = p.layers := congrArg SoilProfile.layers hfix'
    subst hls
    obtain ⟨hd, _⟩ := hidx i hi
    rw [zero_add] at hd
    exact hd

/-- At the query depth equal to the profile bottom, the layer search finds
the last index. -/
theorem findIdx_bottom : ∀ (ls : List SoilLayer) (ts : List ℚ) (b : ℚ),
    ls.map (fun l => l.thickness) = ts.map some →
    (∀ t ∈ ts, 0 < t) →
    (∀ i, i < ls.length → (ls.getD i {}).depth = some (b + (ts.take (i+1)).sum)) →
    ls ≠ [] →
    ls.findIdx? (fun l => pyGeOpt l.depth (b + ts.sum)) = some (ls.length - 1) := by
  intro ls
  induction ls with
  | nil => intro ts b _ _ _ hne; exact absurd rfl hne
  | cons a rest ih =>
    intro ts b hmap hpos hidx hne
    cases ts with
    | nil => exact absurd hmap (by simp)
    | cons t₀ ts' =>
      simp only [List.map_cons, List.cons.injEq] at hmap
      obtain ⟨hth, hrest⟩ := hmap
      have hda : a.depth = some (b + t₀) := by
        have h0 := hidx 0 (by simp)
        simpa using h0
      cases rest with
      | nil =>
        have hts' : ts' = [] := by
          cases ts' with
          | nil => rfl
          | cons x xs => exact absurd hrest (by simp)
        subst hts'
        have hpred : pyGeOpt a.depth (b + ([t₀] : List ℚ).sum) = true := by
          rw [hda]
          refine pyGeOpt_of_le ?_
          simp [List.sum_cons]
        rw [List.findIdx?_cons, if_pos hpred]
        rfl
      | cons c rest' =>
        have hts'_ne : ts' ≠ [] := by
          intro h
          rw [h] at hrest
          exact absurd hrest (by simp)
        have hsum_pos : 0 < ts'.sum :=
          List.sum_pos ts' (fun x hx => hpos x (List.mem_cons_of_mem _ hx)) hts'_ne
        have hq : b + (t₀ :: ts').sum = (b + t₀) + ts'.sum := by
          simp only [List.sum_cons]
          ring
        have hpredf : pyGeOpt a.depth (b + (t₀ + ts'.sum)) = false := by
          rw [hda]
          exact pyGeOpt_of_not_le (by intro hle; linarith)
        rw [List.findIdx?_cons, if_neg (by simp [hpredf])]
        rw [List.findIdx?_succ, hq]
        have hidx' : ∀ i, i < (c :: rest').length →
            (((c :: rest').getD i {})).depth =
              some ((b + t₀) + (ts'.take (i+1)).sum) := by
          intro i hi
          have h' := hidx (i+1) (by simpa using Nat.succ_lt_succ hi)
          rw [List.getD_cons_succ] at h'
          rw [List.take_succ_cons, List.sum_cons] at h'
          rw [h']
          exact congrArg some (by ring)
        rw [ih ts' (b + t₀) hrest
          (fun t ht => hpos t (List.mem_cons_of_mem _ ht)) hidx' (by simp)]
        simp only [Option.map_some']
        exact congrArg some (by simp only [List.length_cons]; omega)

/-- Claim C9: for a profile with fresh depths, positive thicknesses and
valid unit weights, a query depth d beyond the total depth D resolves to
the last layer index, and the normal stress at d is the normal stress at D
plus the last layer's segment stress over [D, d]; when the water table is
at or above the profile bottom this extra term is the saturated unit
weight times (d − D), so the stress grows linearly beyond the bottom. -/
theorem claims_C9 : ∀ (p : SoilProfile) (ts : List ℚ) (g d : ℚ),
    p.layers ≠ [] →
    p.layers.map (fun l => l.thickness) = ts.map some →
    (∀ t ∈ ts, 0 < t) →
    (∀ l ∈ p.layers,
      ¬(l.dry_unit_weight.getD 0 ≤ 1 ∧ l.saturated_unit_weight.getD 0 ≤ 1)) →
    p.ground_water_level = some g →
    p.calc_layer_depths = .ok p →
    ts.sum < d →
    p.get_layer_index d = (p.layers.length : ℤ) - 1
    ∧ p.calc_normal_stress d = (p.calc_normal_stress ts.sum).map
        (fun s => s + segStress g ((p.layers.getLast?.getD {}).dry_unit_weight.getD 0)
          ((p.layers.getLast?.getD {}).saturated_unit_weight.getD 0) ts.sum d)
    ∧ (g ≤ ts.sum → p.calc_normal_stress d = (p.calc_normal_stress ts.sum).map
        (fun s => s +
          ((p.layers.getLast?.getD {}).saturated_unit_weight.getD 0) * (d - ts.sum))) := by
  intro p ts g d hne hmap hpos hw hg hfix hd
  have hdep := fixed_point_depths p ts hmap hfix
  have hnone : p.layers.findIdx? (fun l => pyGeOpt l.depth d) = none := by
    rw [List.findIdx?_eq_none_iff]
    intro l hl
    obtain ⟨i, hi, rfl⟩ := List.mem_iff_getElem.mp hl
    have hde := hdep i hi
    rw [List.getD_eq_getElem _ _ hi] at hde
    rw [hde]
    have hsplit := List.sum_take_add_sum_drop ts (i+1)
    have hdrop : 0 ≤ (ts.drop (i+1)).sum :=
      List.sum_nonneg (fun x hx => le_of_lt (hpos x (List.mem_of_mem_drop hx)))
    exact pyGeOpt_of_not_le (by push_neg; linarith)
  have hidxd : p.get_layer_index d = (p.layers.length : ℤ) - 1 := by
    unfold SoilProfile.get_layer_index
    rw [hnone]
  have hdep0 : ∀ i, i < p.layers.length →
      (p.layers.getD i {}).depth = some (0 + (ts.take (i+1)).sum) := by
    intro i hi
    rw [hdep i hi]
    exact congrArg some (by ring)
  have hsome := findIdx_bottom p.layers ts 0 hmap hpos hdep0 hne
  rw [zero_add] at hsome
  have hlenpos : 0 < p.layers.length := List.length_pos.mpr hne
  have hidxD : p.get_layer_index ts.sum = (p.layers.length : ℤ) - 1 := by
    unfold SoilProfile.get_layer_index
    rw [hsome]
    show ((p.layers.length - 1 : ℕ) : ℤ) = (p.layers.length : ℤ) - 1
    omega
  have htoNat : (((p.layers.length : ℤ) - 1) + 1).toNat = p.layers.length := by omega
  have hstr : ∀ q : ℚ, p.get_layer_index q = (p.layers.length : ℤ) - 1 →
      p.calc_normal_stress q = normalLoop g q 0 p.layers := by
    intro q hq
    unfold SoilProfile.calc_normal_stress
    simp only [hg]
    rw [hq, htoNat, List.take_length]
  refine ⟨hidxd, ?_, ?_⟩
  · rw [hstr d hidxd, hstr ts.sum hidxD]
    exact normalLoop_extend p.layers ts g 0 ts.sum d hne hmap hpos hw
      (by linarith) (le_of_lt hd)
  · intro hgD
    rw [hstr d hidxd, hstr ts.sum hidxD]
    have hseg : segStress g ((p.layers.getLast?.getD {}).dry_unit_weight.getD 0)
        ((p.layers.getLast?.getD {}).saturated_unit_weight.getD 0) ts.sum d =
        ((p.layers.getLast?.getD {}).saturated_unit_weight.getD 0) * (d - ts.sum) := by
      unfold segStress
      rw [if_neg (by
        intro hge
        have : d ≤ g := hge
        linarith), if_pos hgD]
    rw [← hseg]
    exact normalLoop_extend p.layers ts g 0 ts.sum d hne hmap hpos hw
      (by linarith) (le_of_lt hd)

/-- Witness for C9: the two-layer profile of total depth 5 queried at 7. -/
theorem claims_C9_witness :
    profC9.get_layer_index 7 = (profC9.layers.length : ℤ) - 1
    ∧ profC9.calc_normal_stress 7 = (profC9.calc_normal_stress ([(2 : ℚ), 3]).sum).map
        (fun s => s + segStress (5/2)
          ((profC9.layers.getLast?.getD {}).dry_unit_weight.getD 0)
          ((profC9.layers.getLast?.getD {}).saturated_unit_weight.getD 0)
          ([(2 : ℚ), 3]).sum 7)
    ∧ ((5 : ℚ)/2 ≤ ([(2 : ℚ), 3]).sum →
        profC9.calc_normal_stress 7 = (profC9.calc_normal_stress ([(2 : ℚ), 3]).sum).map
          (fun s => s +
            ((profC9.layers.getLast?.getD {}).saturated_unit_weight.getD 0) *
              (7 - ([(2 : ℚ), 3]).sum))) :=
  claims_C9 profC9 [2, 3] (5/2) 7
    (by simp [profC9])
    rfl
    (by intro t ht; simp only [List.mem_cons, List.not_mem_nil, or_false] at ht;
        rcases ht with rfl | rfl <;> norm_num)
    (by intro l hl; simp only [profC9, List.mem_cons, List.not_mem_nil, or_false] at hl;
        rcases hl with rfl | rfl <;> norm_num)
    rfl
    (by norm_num [SoilProfile.calc_layer_depths, calcDepthsGo, profC9, Except.map,
        List.cons_ne_nil])
    (by norm_num)

end SoilPy
